import Mathlib

/-!
Shallow embedding of the Modular-OTA update agent (ESP32 loader firmware).

The embedding translates, from the repository sources:
  * the LittleFS flat filesystem used by the updater and the loader, as an
    association list of paths to byte lists;
  * `ota_backup_current_module`, `ota_rollback_module`,
    `ota_updater_set_module_version`, `ota_updater_get_module_version`,
    `parse_manifest_for_updates` and `ota_updater_download_and_apply_update`
    from the signature-enabled `ota_updater.cpp` iteration;
  * `module_loader_load_module`, `module_loader_unload_module`,
    `module_loader_reload_module` and `module_loader_update_all_modules`
    from the dynamic-loading `module_loader.cpp` iteration;
  * the `STATE_DOWNLOADING_UPDATE` branch of `handle_state_machine` in
    `main.cpp`.

External primitives (HTTP transfer, mbedtls SHA-256 and RSA, ArduinoJson
metadata parsing, executable-memory allocation, the behaviour of a binary
blob once cast to the entry-point function) are parameters of the
definitions, so that theorems quantify over them.
-/

namespace ModularOTA

/-- Byte buffer: contents of a file or a network body. -/
abbrev Bytes := List Nat

/-- The LittleFS flat filesystem: association list from absolute path to
file contents.  At most one entry per path is maintained by the operations. -/
abbrev FS := List (String × Bytes)

/-- Read a file (`LittleFS.open(path, "r")` + full read): the contents at
the first entry for `p`, if any. -/
def fsGet : FS → String → Option Bytes
  | [], _ => none
  | e :: rest, p => if e.1 = p then some e.2 else fsGet rest p

/-- `LittleFS.exists(p)`. -/
def fsExists (fs : FS) (p : String) : Bool :=
  (fsGet fs p).isSome

/-- `LittleFS.remove(p)`: drop every entry for `p`. -/
def fsRemove : FS → String → FS
  | [], _ => []
  | e :: rest, p => if e.1 = p then fsRemove rest p else e :: fsRemove rest p

/-- `LittleFS.open(p, "w")` + write + close: (over)write `p` with `v`. -/
def fsSet (fs : FS) (p : String) (v : Bytes) : FS :=
  (p, v) :: fsRemove fs p

/-- `LittleFS.rename(src, dst)`: succeeds exactly when `src` exists, moving
its contents to `dst`; the Bool is the return value of `rename`. -/
def fsRename (fs : FS) (src dst : String) : FS × Bool :=
  match fsGet fs src with
  | some v => (fsSet (fsRemove fs src) dst v, true)
  | none => (fs, false)


/-- `strncpy(dst, src, sizeof(field) - 1)` into a zeroed 32-byte buffer:
keeps the first 31 characters. -/
def strncpy31 (s : String) : String := { data := s.data.take 31 }


/-- `update_status_t` from `ota_updater.h`. -/
inductive update_status
  | UPDATE_SUCCESS
  | UPDATE_NO_UPDATES_AVAILABLE
  | UPDATE_DOWNLOAD_FAILED
  | UPDATE_VERIFICATION_FAILED
  | UPDATE_INSTALLATION_FAILED
  | UPDATE_NETWORK_ERROR
  | UPDATE_STORAGE_ERROR
  | UPDATE_INVALID_MANIFEST
deriving Repr, DecidableEq

export update_status (UPDATE_SUCCESS UPDATE_NO_UPDATES_AVAILABLE
  UPDATE_DOWNLOAD_FAILED UPDATE_VERIFICATION_FAILED UPDATE_INSTALLATION_FAILED
  UPDATE_NETWORK_ERROR UPDATE_STORAGE_ERROR UPDATE_INVALID_MANIFEST)

/-- `UpdateInfo` from `ota_updater.h` (fixed char arrays become strings;
the string fields written by `strncpy(_, _, 31)` are truncated on write). -/
structure UpdateInfo where
  module_name : String
  current_version : String
  available_version : String
  file_size : Nat
  sha256_hash : String
  is_critical : Bool
  priority : String
deriving Repr, DecidableEq

/-- `TrackedModule` from `ota_updater.h`. -/
structure TrackedModule where
  module_name : String
  current_version : String
deriving Repr, DecidableEq

/-- The mutable state of `OTAUpdater` that the modelled operations touch:
the pending-update queue and the tracked-version table.  The C fixed
arrays with their counts (`pending_updates`/`pending_update_count`,
`tracked_modules`/`num_tracked_modules`) are modelled as lists whose
length is the count; the capacity bound 8 is enforced by the operations
exactly where the C code checks it. -/
structure OTAUpdater where
  pending_updates : List UpdateInfo
  tracked_modules : List TrackedModule
deriving Repr, DecidableEq

/-- `"/" + module_name + ".bin"`: the active binary of a module. -/
def currentPath (module_name : String) : String := "/" ++ module_name ++ ".bin"

/-- `"/" + module_name + ".bin.backup"`: the backup slot. -/
def backupPath (module_name : String) : String := "/" ++ module_name ++ ".bin.backup"

/-- `"/" + module_name + ".bin.new"`: the staging file of a download. -/
def tempPath (module_name : String) : String := "/" ++ module_name ++ ".bin.new"

/-- `"/" + module_name + "_metadata.json"`: the downloaded side-file. -/
def metaPath (module_name : String) : String := "/" ++ module_name ++ "_metadata.json"

/-- The URL the binary is downloaded from
(`<server>/storage/v1/object/ota-modules/<name>/latest/<name>.bin`). -/
def binary_url (server_url module_name : String) : String :=
  server_url ++ "/storage/v1/object/ota-modules/" ++ module_name ++ "/latest/" ++
    module_name ++ ".bin"

/-- The URL the per-artifact metadata side-file is downloaded from. -/
def metadata_url (server_url module_name : String) : String :=
  server_url ++ "/storage/v1/object/ota-modules/" ++ module_name ++
    "/latest/metadata.json"


/-- `ota_backup_current_module` (ota_updater.cpp): if the active binary
exists, delete any prior backup and rename active to backup; with no
active binary, return `true` without touching the filesystem. -/
def ota_backup_current_module (module_name : String) (fs : FS) : Bool × FS :=
  let current_path := currentPath module_name
  let backup_path := backupPath module_name
  if fsExists fs current_path then
    let fs1 := if fsExists fs backup_path then fsRemove fs backup_path else fs
    let (fs2, ok) := fsRename fs1 current_path backup_path
    (ok, fs2)
  else
    (true, fs)

/-- `ota_rollback_module` (ota_updater.cpp): if a backup exists, delete the
active binary (if present) and rename backup to active; otherwise fail. -/
def ota_rollback_module (module_name : String) (fs : FS) : Bool × FS :=
  let current_path := currentPath module_name
  let backup_path := backupPath module_name
  if fsExists fs backup_path then
    let fs1 := if fsExists fs current_path then fsRemove fs current_path else fs
    let (fs2, ok) := fsRename fs1 backup_path current_path
    (ok, fs2)
  else
    (false, fs)

/-- The scan in `ota_updater_set_module_version`: overwrite the version of
the first tracked entry named `module_name`, or report that none matches. -/
def updateTracked : List TrackedModule → String → String →
    Option (List TrackedModule)
  | [], _, _ => none
  | m :: rest, module_name, version =>
    if m.module_name = module_name then
      some ({ m with current_version := strncpy31 version } :: rest)
    else
      (updateTracked rest module_name version).map (m :: ·)

/-- `ota_updater_set_module_version` (ota_updater.cpp): upsert into the
tracked-module table, capacity 8. -/
def ota_updater_set_module_version (u : OTAUpdater) (module_name version : String) :
    Bool × OTAUpdater :=
  match updateTracked u.tracked_modules module_name version with
  | some tracked => (true, { u with tracked_modules := tracked })
  | none =>
    if u.tracked_modules.length < 8 then
      (true, { u with tracked_modules := u.tracked_modules ++
        [⟨strncpy31 module_name, strncpy31 version⟩] })
    else
      (false, u)

/-- `ota_updater_get_module_version` (ota_updater.cpp): version of the first
tracked entry named `module_name`. -/
def ota_updater_get_module_version : List TrackedModule → String → Option String
  | [], _ => none
  | m :: rest, module_name =>
    if m.module_name = module_name then some m.current_version
    else ota_updater_get_module_version rest module_name

/-- The hard-coded `supported_modules` table in `parse_manifest_for_updates`. -/
def supported_modules : List String := ["speed_governor", "distance_sensor"]

/-- The manifest document as consumed by `parse_manifest_for_updates`: the
only field it reads is `latest_version` per module name. -/
abbrev Manifest := List (String × String)

/-- The current-version default in `parse_manifest_for_updates`: the tracked
version if any; a missing (or literally `"unknown"`) tracked version becomes
the `"0.0.0"` baseline. -/
def currentVersionFor (tracked : List TrackedModule) (module_name : String) : String :=
  let cv := (ota_updater_get_module_version tracked module_name).getD "unknown"
  if cv = "unknown" then "0.0.0" else cv

/-- The `UpdateInfo` record built by `parse_manifest_for_updates` when it
enqueues a pending update. -/
def mkPendingUpdate (module_name current_version available_version : String) :
    UpdateInfo where
  module_name := strncpy31 module_name
  current_version := strncpy31 current_version
  available_version := strncpy31 available_version
  file_size := 0
  sha256_hash := "will_be_fetched_later"
  is_critical := false
  priority := "normal"

/-- The loop body of `parse_manifest_for_updates` over the supported-module
table, carrying the pending array built so far (the loop stops once 8
pending updates have accumulated). -/
def parseManifestLoop (tracked : List TrackedModule) (manifest : Manifest) :
    List String → List UpdateInfo → List UpdateInfo
  | [], acc => acc
  | module_name :: rest, acc =>
    if acc.length < 8 then
      let acc' :=
        match manifest.lookup module_name with
        | some available_version =>
          let current_version := currentVersionFor tracked module_name
          if available_version ≠ current_version then
            acc ++ [mkPendingUpdate module_name current_version available_version]
          else acc
        | none => acc
      parseManifestLoop tracked manifest rest acc'
    else acc

/-- `parse_manifest_for_updates` (ota_updater.cpp, signature-enabled
iteration): rebuild the pending-update queue from the manifest.  A pending
update is enqueued for each supported module that the manifest lists with a
`latest_version` differing (string inequality) from the tracked version. -/
def parse_manifest_for_updates (tracked : List TrackedModule) (manifest : Manifest) :
    List UpdateInfo :=
  parseManifestLoop tracked manifest supported_modules []

/-- The linear search at the top of `ota_updater_download_and_apply_update`:
first pending update whose `module_name` matches. -/
def findPendingUpdate : List UpdateInfo → String → Option UpdateInfo
  | [], _ => none
  | ui :: rest, module_name =>
    if ui.module_name = module_name then some ui
    else findPendingUpdate rest module_name

/-- `verify_signature` (ota_updater.cpp): the demo placeholder signature is
accepted unconditionally; otherwise the file at `path` is hashed and the
signature is checked against it under `public_key_pem`.  `sigChk` stands for
the mbedtls RSA verification primitive (key parsing and base64 decoding
failures fold into it returning `false`). -/
def verify_signature (sigChk : Bytes → String → String → Bool) (fs : FS)
    (path signature_b64 public_key_pem : String) : Bool :=
  if signature_b64 = "placeholder-for-demo-signature" then true
  else
    match fsGet fs path with
    | none => false
    | some bytes => sigChk bytes signature_b64 public_key_pem

/-- External primitives of `ota_updater_download_and_apply_update`:
`hashHex` is `calculate_sha256` over in-memory bytes (hex string output);
`parseMeta` is the ArduinoJson parse of the metadata side-file, returning
`none` on a deserialization error and otherwise the optional value of its
`signature` field; `sigChk` is the mbedtls signature check; `net url` is the
body of a successful `download_file_from_url` GET of `url` (`none` when the
download fails and no file is written). -/
structure OtaEnv where
  hashHex : Bytes → String
  parseMeta : Bytes → Option (Option String)
  sigChk : Bytes → String → String → Bool
  net : String → Option Bytes
  server_url : String
  public_key_pem : String

/-- `ota_updater_download_and_apply_update` (ota_updater.cpp,
signature-enabled iteration).  Returns the `update_status_t` and the
filesystem after the call; the `OTAUpdater` state is read (pending queue)
but never written by this function. -/
def ota_updater_download_and_apply_update (env : OtaEnv) (u : OTAUpdater)
    (fs : FS) (module_name : String) : update_status × FS :=
  match findPendingUpdate u.pending_updates module_name with
  | none => (UPDATE_INSTALLATION_FAILED, fs)
  | some update_info =>
    let metadata_path := metaPath module_name
    let temp_binary_path := tempPath module_name
    match env.net (metadata_url env.server_url module_name) with
    | none => (UPDATE_DOWNLOAD_FAILED, fs)
    | some md =>
      let fs := fsSet fs metadata_path md
      match env.net (binary_url env.server_url module_name) with
      | none => (UPDATE_DOWNLOAD_FAILED, fsRemove fs metadata_path)
      | some bin =>
        let fs := fsSet fs temp_binary_path bin
        match fsGet fs temp_binary_path with
        | none =>
          (UPDATE_VERIFICATION_FAILED,
            fsRemove (fsRemove fs metadata_path) temp_binary_path)
        | some tempBytes =>
          let calculated_hash := env.hashHex tempBytes
          if calculated_hash ≠ update_info.sha256_hash then
            (UPDATE_VERIFICATION_FAILED,
              fsRemove (fsRemove fs metadata_path) temp_binary_path)
          else
            match fsGet fs metadata_path with
            | none => (UPDATE_VERIFICATION_FAILED, fsRemove fs temp_binary_path)
            | some metaBytes =>
              match env.parseMeta metaBytes with
              | none =>
                (UPDATE_VERIFICATION_FAILED,
                  fsRemove (fsRemove fs metadata_path) temp_binary_path)
              | some sigField =>
                let signature := sigField.getD "missing"
                if signature = "missing" then
                  (UPDATE_VERIFICATION_FAILED,
                    fsRemove (fsRemove fs metadata_path) temp_binary_path)
                else if ¬ verify_signature env.sigChk fs temp_binary_path
                    signature env.public_key_pem then
                  (UPDATE_VERIFICATION_FAILED,
                    fsRemove (fsRemove fs metadata_path) temp_binary_path)
                else
                  let current_binary_path := currentPath module_name
                  let fs :=
                    if fsExists fs current_binary_path then
                      (ota_backup_current_module module_name fs).2
                    else fs
                  let fs :=
                    if fsExists fs current_binary_path then
                      fsRemove fs current_binary_path
                    else fs
                  match fsRename fs temp_binary_path current_binary_path with
                  | (fs, true) => (UPDATE_SUCCESS, fsRemove fs metadata_path)
                  | (fs, false) =>
                    let fs := (ota_rollback_module module_name fs).2
                    (UPDATE_INSTALLATION_FAILED, fsRemove fs metadata_path)

/-- `module_status_t` from `module_loader.h`. -/
inductive module_status
  | MODULE_LOAD_SUCCESS
  | MODULE_LOAD_FILE_NOT_FOUND
  | MODULE_LOAD_MEMORY_ERROR
  | MODULE_LOAD_INVALID_FORMAT
  | MODULE_LOAD_INIT_FAILED
  | MODULE_LOAD_ALREADY_LOADED
  | MODULE_UNLOAD_SUCCESS
  | MODULE_UNLOAD_NOT_FOUND
  | MODULE_UNLOAD_ERROR
deriving Repr, DecidableEq

export module_status (MODULE_LOAD_SUCCESS MODULE_LOAD_FILE_NOT_FOUND
  MODULE_LOAD_MEMORY_ERROR MODULE_LOAD_INVALID_FORMAT MODULE_LOAD_INIT_FAILED
  MODULE_LOAD_ALREADY_LOADED MODULE_UNLOAD_SUCCESS MODULE_UNLOAD_NOT_FOUND
  MODULE_UNLOAD_ERROR)

/-- Observable behaviour of a binary blob once cast to the entry-point
function (`GetModuleInterfaceFunc`): the `ModuleInterface` it returns.
`none` models a null interface pointer or one with a null `module_name` or
null `initialize` (the three null checks in `module_loader_load_module`);
`init_ok` is the return value of the module's `initialize` hook. -/
structure ModIface where
  module_name : String
  module_version : String
  init_ok : Bool
deriving Repr, DecidableEq

/-- `LoadedModule` from `module_loader.h` (pointers `code_memory` and
`interface` are not observable state; `code_size` and the identity fields
are kept). -/
structure LoadedModule where
  name : String
  version : String
  code_size : Nat
  is_active : Bool
deriving Repr, DecidableEq

/-- `ModuleLoader` from `module_loader.h`: the slots `modules[0 ..
loaded_count-1]` in order (the dynamic-loading iteration keeps them compact
by shifting on unload); `loaded_count` is the list length. -/
structure ModuleLoader where
  modules : List LoadedModule
deriving Repr, DecidableEq

/-- `find_loaded_module` (module_loader.cpp): first slot that is active and
has the given name. -/
def find_loaded_module : List LoadedModule → String → Option LoadedModule
  | [], _ => none
  | m :: rest, module_name =>
    if m.is_active ∧ m.name = module_name then some m
    else find_loaded_module rest module_name

/-- `module_loader_is_module_loaded` (module_loader.cpp). -/
def module_loader_is_module_loaded (loader : ModuleLoader) (module_name : String) :
    Bool :=
  (find_loaded_module loader.modules module_name).isSome

/-- `module_loader_load_module` (module_loader.cpp, dynamic-loading
iteration).  `imageOf` interprets file bytes as the behaviour of the blob
cast to the entry point; `allocOK size` is whether
`heap_caps_malloc(size, MALLOC_CAP_EXEC)` succeeds (the in-memory read that
cannot fail after a successful open is not modelled). -/
def module_loader_load_module (fs : FS) (imageOf : Bytes → Option ModIface)
    (allocOK : Nat → Bool) (loader : ModuleLoader) (module_name : String) :
    module_status × ModuleLoader :=
  if module_loader_is_module_loaded loader module_name then
    (MODULE_LOAD_ALREADY_LOADED, loader)
  else
    match fsGet fs ("/" ++ module_name ++ ".bin") with
    | none => (MODULE_LOAD_FILE_NOT_FOUND, loader)
    | some bytes =>
      if bytes.length = 0 then (MODULE_LOAD_INVALID_FORMAT, loader)
      else if allocOK bytes.length = false then (MODULE_LOAD_MEMORY_ERROR, loader)
      else
        match imageOf bytes with
        | none => (MODULE_LOAD_INVALID_FORMAT, loader)
        | some ifc =>
          if ifc.init_ok = false then (MODULE_LOAD_INIT_FAILED, loader)
          else
            (MODULE_LOAD_SUCCESS,
              ⟨loader.modules ++
                [⟨strncpy31 ifc.module_name, strncpy31 ifc.module_version,
                  bytes.length, true⟩]⟩)

/-- The shift-down removal in `module_loader_unload_module`: drop the first
active slot with the given name. -/
def removeFirstModule : List LoadedModule → String → List LoadedModule
  | [], _ => []
  | m :: rest, module_name =>
    if m.is_active ∧ m.name = module_name then rest
    else m :: removeFirstModule rest module_name

/-- `module_loader_unload_module` (module_loader.cpp, dynamic-loading
iteration): deinitialize, free, and compact the registry. -/
def module_loader_unload_module (loader : ModuleLoader) (module_name : String) :
    module_status × ModuleLoader :=
  match find_loaded_module loader.modules module_name with
  | none => (MODULE_UNLOAD_NOT_FOUND, loader)
  | some _ => (MODULE_UNLOAD_SUCCESS, ⟨removeFirstModule loader.modules module_name⟩)

/-- `module_loader_reload_module` (module_loader.cpp, dynamic-loading
iteration): unload (result ignored), then load. -/
def module_loader_reload_module (fs : FS) (imageOf : Bytes → Option ModIface)
    (allocOK : Nat → Bool) (loader : ModuleLoader) (module_name : String) :
    module_status × ModuleLoader :=
  let loader := (module_loader_unload_module loader module_name).2
  module_loader_load_module fs imageOf allocOK loader module_name

/-- `module_loader_get_module` (module_loader.cpp). -/
def module_loader_get_module (loader : ModuleLoader) (module_name : String) :
    Option LoadedModule :=
  find_loaded_module loader.modules module_name

/-- `module_loader_update_all_modules` (module_loader.cpp): invoke the
`update` hook of every active module; the registry is untouched.  The
second component records, in slot order, the modules whose hook runs. -/
def module_loader_update_all_modules (loader : ModuleLoader) :
    ModuleLoader × List String :=
  (loader, (loader.modules.filter (fun m => m.is_active)).map (fun m => m.name))

/-- `ota_updater_clear_pending_updates` (ota_updater.cpp). -/
def ota_updater_clear_pending_updates (u : OTAUpdater) : OTAUpdater :=
  { u with pending_updates := [] }

/-- `SystemState` from `main.cpp`. -/
inductive SystemState
  | STATE_INIT
  | STATE_NORMAL_OPERATION
  | STATE_CHECK_UPDATES
  | STATE_UPDATE_AVAILABLE
  | STATE_WAIT_FOR_IDLE
  | STATE_DOWNLOADING_UPDATE
  | STATE_APPLYING_UPDATE
  | STATE_UPDATE_SUCCESS
  | STATE_UPDATE_FAILURE
  | STATE_ERROR
deriving Repr, DecidableEq

export SystemState (STATE_INIT STATE_NORMAL_OPERATION STATE_CHECK_UPDATES
  STATE_UPDATE_AVAILABLE STATE_WAIT_FOR_IDLE STATE_DOWNLOADING_UPDATE
  STATE_APPLYING_UPDATE STATE_UPDATE_SUCCESS STATE_UPDATE_FAILURE STATE_ERROR)

/-- The `STATE_DOWNLOADING_UPDATE` branch of `handle_state_machine`
(main.cpp): apply the first pending update, on success reload the module
and re-track its version, then clear the whole pending queue.  LED and
logging side effects are not modelled.  Returns the next `SystemState`
(unchanged when the queue was empty) and the updated components. -/
def handle_downloading_update (env : OtaEnv) (imageOf : Bytes → Option ModIface)
    (allocOK : Nat → Bool) (ota : OTAUpdater) (loader : ModuleLoader) (fs : FS) :
    SystemState × OTAUpdater × ModuleLoader × FS :=
  match ota.pending_updates with
  | [] => (STATE_DOWNLOADING_UPDATE, ota_updater_clear_pending_updates ota, loader, fs)
  | first :: _ =>
    let module_name := first.module_name
    let (st, fs) := ota_updater_download_and_apply_update env ota fs module_name
    if st = UPDATE_SUCCESS then
      let (rst, loader) := module_loader_reload_module fs imageOf allocOK loader
        module_name
      let ota :=
        if rst = MODULE_LOAD_SUCCESS then
          match module_loader_get_module loader module_name with
          | some m => (ota_updater_set_module_version ota module_name m.version).2
          | none => ota
        else ota
      (STATE_UPDATE_SUCCESS, ota_updater_clear_pending_updates ota, loader, fs)
    else
      (STATE_UPDATE_FAILURE, ota_updater_clear_pending_updates ota, loader, fs)

/-- Decimal digit value of a character, if it is a digit. -/
def digitVal? (c : Char) : Option Nat :=
  if c = '0' then some 0 else if c = '1' then some 1 else if c = '2' then some 2
  else if c = '3' then some 3 else if c = '4' then some 4
  else if c = '5' then some 5 else if c = '6' then some 6
  else if c = '7' then some 7 else if c = '8' then some 8
  else if c = '9' then some 9 else none

/-- Value of a non-empty all-digit character list, most significant first. -/
def decimalToNatAux : List Char → Nat → Option Nat
  | [], acc => some acc
  | c :: rest, acc =>
    match digitVal? c with
    | some d => decimalToNatAux rest (acc * 10 + d)
    | none => none

/-- Parse a decimal numeral; empty or non-digit input is rejected. -/
def decimalToNat? : List Char → Option Nat
  | [] => none
  | l => decimalToNatAux l 0

/-- Split a character list at the dots. -/
def splitDotAux : List Char → List Char → List (List Char)
  | [], acc => [acc.reverse]
  | c :: rest, acc =>
    if c = '.' then acc.reverse :: splitDotAux rest []
    else splitDotAux rest (c :: acc)

/-- Spec-side definition, following the spec wording for comparison with
the code: component-wise semantic-version parse of `MAJOR.MINOR.PATCH`;
strings outside the grammar are "unknown" and compare as `none`. -/
def semver_parse_spec (s : String) : Option (Nat × Nat × Nat) :=
  match splitDotAux s.data [] with
  | [a, b, c] =>
    match decimalToNat? a, decimalToNat? b, decimalToNat? c with
    | some x, some y, some z => some (x, y, z)
    | _, _, _ => none
  | _ => none

/-- Spec-side definition, following the spec wording for comparison with
the code: `v` is strictly greater than `w` under component-wise
(lexicographic on the triple) semantic-version comparison; an unknown
version is never the target of an upgrade. -/
def semver_gt_spec (v w : String) : Bool :=
  match semver_parse_spec v, semver_parse_spec w with
  | some (x1, y1, z1), some (x2, y2, z2) =>
    decide (x1 > x2 ∨ (x1 = x2 ∧ (y1 > y2 ∨ (y1 = y2 ∧ z1 > z2))))
  | _, _ => false

/-- Spec-side definition, following the spec wording for comparison with
the code: the immutable per-version artifact path
`<base>/<name>/<name>-vMAJOR.MINOR.PATCH.bin`. -/
def immutable_artifact_path_spec (base name version : String) : String :=
  base ++ "/" ++ name ++ "/" ++ name ++ "-v" ++ version ++ ".bin"

/-- Names of all registry slots of a loader, in slot order. -/
def moduleNames (loader : ModuleLoader) : List String :=
  loader.modules.map (fun m => m.name)

/-- Number of active registry slots carrying the name `n`. -/
def activeCount (loader : ModuleLoader) (n : String) : Nat :=
  (loader.modules.filter (fun m => m.is_active && m.name == n)).length

/-- Registry invariant of the dynamic-loading iteration: every stored slot
is active (slots are compacted on unload) and slot names are pairwise
distinct. -/
def LoaderInv (loader : ModuleLoader) : Prop :=
  (∀ m ∈ loader.modules, m.is_active = true) ∧ (moduleNames loader).Nodup

/-- Names of all tracked modules of an updater, in table order. -/
def trackedNames (u : OTAUpdater) : List String :=
  u.tracked_modules.map (fun m => m.module_name)

/-- Number of tracked entries carrying the name `n`. -/
def trackedCount (u : OTAUpdater) (n : String) : Nat :=
  (u.tracked_modules.filter (fun m => m.module_name == n)).length

/-! Concrete sample data used by witnesses and counterexamples. -/

/-- Sample network: bodies served only at the two latest-path URLs of
`speed_governor` (metadata body `[0]`, binary body `[1, 2]`). -/
def netW : String → Option Bytes := fun url =>
  if url = metadata_url "https://s" "speed_governor" then some [0]
  else if url = binary_url "https://s" "speed_governor" then some [1, 2]
  else none

/-- Sample network agreeing with `netW` on the two latest-path URLs but
differing elsewhere. -/
def netW2 : String → Option Bytes := fun url =>
  if url = "https://s/other" then some [5] else netW url

/-- Sample environment whose downloads verify successfully (demo
placeholder signature, constant hash `"HB"`). -/
def envW : OtaEnv where
  hashHex := fun _ => "HB"
  parseMeta := fun _ => some (some "placeholder-for-demo-signature")
  sigChk := fun _ _ _ => false
  net := netW
  server_url := "https://s"
  public_key_pem := "PK"

/-- Sample environment whose hash primitive never matches the expected
digest `"HB"`. -/
def envMismatch : OtaEnv where
  hashHex := fun _ => "XX"
  parseMeta := fun _ => some (some "placeholder-for-demo-signature")
  sigChk := fun _ _ _ => false
  net := netW
  server_url := "https://s"
  public_key_pem := "PK"

/-- Sample pending update for `speed_governor` expecting digest `"HB"`. -/
def uiW : UpdateInfo :=
  ⟨"speed_governor", "1.0.0", "1.1.0", 0, "HB", false, "normal"⟩

/-- Sample updater holding only `uiW` and an empty version table. -/
def uW : OTAUpdater := ⟨[uiW], []⟩

/-- Sample filesystem with an active `speed_governor` binary `[9]`. -/
def fsW : FS := [(currentPath "speed_governor", [9])]

/-- Metadata parse double for the C1 counterexample: body `[0]` carries
signature `"goodsig"`, body `[1]` carries `"badsig"`. -/
def parseMetaC1 : Bytes → Option (Option String) := fun b =>
  if b = [0] then some (some "goodsig")
  else if b = [1] then some (some "badsig")
  else none

/-- Signature check double for the C1 counterexample: only `"goodsig"`
verifies. -/
def sigChkC1 : Bytes → String → String → Bool := fun _ s _ => s = "goodsig"

/-- C1 environment serving metadata body `[0]` (side-file signature
`"goodsig"`). -/
def envC1good : OtaEnv where
  hashHex := fun _ => "HB"
  parseMeta := parseMetaC1
  sigChk := sigChkC1
  net := netW
  server_url := "https://s"
  public_key_pem := "PK"

/-- C1 environment identical to `envC1good` except that the downloaded
metadata side-file body is `[1]` (side-file signature `"badsig"`); the
binary body and every other input are unchanged. -/
def envC1bad : OtaEnv where
  hashHex := fun _ => "HB"
  parseMeta := parseMetaC1
  sigChk := sigChkC1
  net := fun url =>
    if url = metadata_url "https://s" "speed_governor" then some [1] else netW url
  server_url := "https://s"
  public_key_pem := "PK"

/-- Tracked versions for the C6 scenario: both supported modules at 1.0.0. -/
def trackedC6 : List TrackedModule :=
  [⟨"speed_governor", "1.0.0"⟩, ⟨"distance_sensor", "1.0.0"⟩]

/-- Manifest for the C6 scenario: both supported modules offer 1.1.0. -/
def manifestC6 : Manifest :=
  [("speed_governor", "1.1.0"), ("distance_sensor", "1.1.0")]

/-- Updater state after the C6 check: both updates pending. -/
def otaC6 : OTAUpdater :=
  ⟨parse_manifest_for_updates trackedC6 manifestC6, trackedC6⟩

/-- C6 environment: `speed_governor` downloads succeed and verify (the
expected digest of a freshly parsed pending update is the placeholder
`"will_be_fetched_later"`). -/
def envC6 : OtaEnv where
  hashHex := fun _ => "will_be_fetched_later"
  parseMeta := fun _ => some (some "placeholder-for-demo-signature")
  sigChk := fun _ _ _ => false
  net := fun url =>
    if url = metadata_url "https://s" "speed_governor" then some [0]
    else if url = binary_url "https://s" "speed_governor" then some [1]
    else none
  server_url := "https://s"
  public_key_pem := "PK"

/-- C6 filesystem: both modules have active binaries. -/
def fsC6 : FS :=
  [(currentPath "speed_governor", [9]), (currentPath "distance_sensor", [8])]

/-- C6 loader: both modules loaded at 1.0.0. -/
def loaderC6 : ModuleLoader :=
  ⟨[⟨"speed_governor", "1.0.0", 1, true⟩, ⟨"distance_sensor", "1.0.0", 1, true⟩]⟩

/-- Blob behaviour for the C6 scenario: the new binary `[1]` reports
`speed_governor` 1.1.0 and initializes. -/
def imageOfC6 : Bytes → Option ModIface := fun b =>
  if b = [1] then some ⟨"speed_governor", "1.1.0", true⟩
  else if b = [9] then some ⟨"speed_governor", "1.0.0", true⟩
  else if b = [8] then some ⟨"distance_sensor", "1.0.0", true⟩
  else none

/-- Allocation double that always succeeds. -/
def allocW : Nat → Bool := fun _ => true

/-- C7 filesystem: `speed_governor.bin` is blob `[1]`; a second file
`a.bin` is blob `[7]`. -/
def fsC7 : FS := [("/speed_governor.bin", [1]), ("/a.bin", [7])]

/-- Blob behaviour for the C7 counterexample: blob `[7]`, loaded from
`a.bin`, reports the interface name `speed_governor`. -/
def imageOfC7 : Bytes → Option ModIface := fun b =>
  if b = [1] then some ⟨"speed_governor", "1.0.0", true⟩
  else if b = [7] then some ⟨"speed_governor", "1.1.0", true⟩
  else none

/-- An eight-entry tracked-module table (the capacity of the C array). -/
def trackedFull : List TrackedModule :=
  [⟨"m1", "1.0.0"⟩, ⟨"m2", "1.0.0"⟩, ⟨"m3", "1.0.0"⟩, ⟨"m4", "1.0.0"⟩,
   ⟨"m5", "1.0.0"⟩, ⟨"m6", "1.0.0"⟩, ⟨"m7", "1.0.0"⟩, ⟨"m8", "1.0.0"⟩]

/-! ## Theorems -/

/-- Strings of different lengths are different. -/
theorem ne_of_length_ne {a b : String} (h : a.length ≠ b.length) : a ≠ b :=
  fun he => h (he ▸ rfl)

theorem fsGet_fsSet_same (fs : FS) (p : String) (v : Bytes) :
    fsGet (fsSet fs p v) p = some v := by
  simp [fsGet, fsSet]

theorem fsGet_fsRemove_same (fs : FS) (p : String) :
    fsGet (fsRemove fs p) p = none := by
  induction fs with
  | nil => simp [fsGet, fsRemove]
  | cons e rest ih =>
    by_cases h : e.1 = p
    · simpa [fsRemove, h] using ih
    · simpa [fsGet, fsRemove, h] using ih

theorem fsGet_fsRemove_other (fs : FS) (p q : String) (h : p ≠ q) :
    fsGet (fsRemove fs p) q = fsGet fs q := by
  induction fs with
  | nil => simp [fsGet, fsRemove]
  | cons e rest ih =>
    by_cases he : e.1 = p
    · simpa [fsGet, fsRemove, he, h] using ih
    · by_cases hq : e.1 = q
      · simp [fsGet, fsRemove, he, hq, Ne.symm h]
      · simpa [fsGet, fsRemove, he, hq] using ih

theorem fsGet_fsSet_other (fs : FS) (p q : String) (v : Bytes) (h : p ≠ q) :
    fsGet (fsSet fs p v) q = fsGet fs q := by
  simpa [fsSet, fsGet, h] using fsGet_fsRemove_other fs p q h

theorem fsExists_iff (fs : FS) (p : String) :
    fsExists fs p = true ↔ (fsGet fs p).isSome := by
  simp [fsExists]

theorem strncpy31_of_le {s : String} (h : s.length ≤ 31) : strncpy31 s = s := by
  cases s with
  | mk d =>
    simp [String.length] at h
    simp [strncpy31, List.take_of_length_le h]

theorem currentPath_length (n : String) : (currentPath n).length = n.length + 5 := by
  have h1 : "/".length = 1 := rfl
  have h2 : ".bin".length = 4 := rfl
  simp [currentPath, String.length_append, h1, h2]; omega

theorem backupPath_length (n : String) : (backupPath n).length = n.length + 12 := by
  have h1 : "/".length = 1 := rfl
  have h2 : ".bin.backup".length = 11 := rfl
  simp [backupPath, String.length_append, h1, h2]; omega

theorem tempPath_length (n : String) : (tempPath n).length = n.length + 9 := by
  have h1 : "/".length = 1 := rfl
  have h2 : ".bin.new".length = 8 := rfl
  simp [tempPath, String.length_append, h1, h2]; omega

theorem metaPath_length (n : String) : (metaPath n).length = n.length + 15 := by
  have h1 : "/".length = 1 := rfl
  have h2 : "_metadata.json".length = 14 := rfl
  simp [metaPath, String.length_append, h1, h2]; omega

theorem currentPath_ne_backupPath (n : String) : currentPath n ≠ backupPath n :=
  ne_of_length_ne (by rw [currentPath_length, backupPath_length]; omega)

theorem currentPath_ne_tempPath (n : String) : currentPath n ≠ tempPath n :=
  ne_of_length_ne (by rw [currentPath_length, tempPath_length]; omega)

theorem currentPath_ne_metaPath (n : String) : currentPath n ≠ metaPath n :=
  ne_of_length_ne (by rw [currentPath_length, metaPath_length]; omega)

theorem backupPath_ne_tempPath (n : String) : backupPath n ≠ tempPath n :=
  ne_of_length_ne (by rw [backupPath_length, tempPath_length]; omega)

theorem backupPath_ne_metaPath (n : String) : backupPath n ≠ metaPath n :=
  ne_of_length_ne (by rw [backupPath_length, metaPath_length]; omega)

theorem tempPath_ne_metaPath (n : String) : tempPath n ≠ metaPath n :=
  ne_of_length_ne (by rw [tempPath_length, metaPath_length]; omega)

theorem fsRemove_eq_of_get_none (fs : FS) (p : String) (h : fsGet fs p = none) :
    fsRemove fs p = fs := by
  induction fs with
  | nil => simp [fsRemove]
  | cons e rest ih =>
    by_cases he : e.1 = p
    · simp [fsGet, he] at h
    · simp [fsGet, he] at h
      simp [fsRemove, he, ih h]

/-- `ota_backup_current_module` when an active binary `a` exists: it
returns `true`, the backup slot now holds `a`, the active slot is empty,
and every other path is untouched. -/
theorem backup_gets_of_active (fs : FS) (n : String) (a : Bytes)
    (ha : fsGet fs (currentPath n) = some a) :
    (ota_backup_current_module n fs).1 = true ∧
    fsGet (ota_backup_current_module n fs).2 (backupPath n) = some a ∧
    fsGet (ota_backup_current_module n fs).2 (currentPath n) = none ∧
    ∀ q, q ≠ backupPath n → q ≠ currentPath n →
      fsGet (ota_backup_current_module n fs).2 q = fsGet fs q := by
  have hex : fsExists fs (currentPath n) = true := by simp [fsExists, ha]
  have hcb : currentPath n ≠ backupPath n := currentPath_ne_backupPath n
  by_cases hb : fsExists fs (backupPath n) = true
  · have h1 : fsGet (fsRemove fs (backupPath n)) (currentPath n) = some a := by
      rw [fsGet_fsRemove_other fs (backupPath n) (currentPath n) hcb.symm]; exact ha
    simp only [ota_backup_current_module, hex, hb, if_true, fsRename, h1]
    refine ⟨by trivial, ?_, ?_, ?_⟩
    · exact fsGet_fsSet_same _ _ _
    · rw [fsGet_fsSet_other _ _ _ _ hcb.symm]
      exact fsGet_fsRemove_same _ _
    · intro q hqb hqc
      rw [fsGet_fsSet_other _ _ _ _ (fun he => hqb he.symm),
        fsGet_fsRemove_other _ _ _ (fun he => hqc he.symm),
        fsGet_fsRemove_other _ _ _ (fun he => hqb he.symm)]
  · have hb' : fsExists fs (backupPath n) = false := by
      revert hb; cases fsExists fs (backupPath n) <;> simp
    simp only [ota_backup_current_module, hex, hb', if_true, Bool.false_eq_true,
      if_false, fsRename, ha]
    refine ⟨by trivial, ?_, ?_, ?_⟩
    · exact fsGet_fsSet_same _ _ _
    · rw [fsGet_fsSet_other _ _ _ _ hcb.symm]
      exact fsGet_fsRemove_same _ _
    · intro q hqb hqc
      rw [fsGet_fsSet_other _ _ _ _ (fun he => hqb he.symm),
        fsGet_fsRemove_other _ _ _ (fun he => hqc he.symm)]

/-- `ota_backup_current_module` with no active binary: success, no change. -/
theorem backup_of_no_active (fs : FS) (n : String)
    (h : fsExists fs (currentPath n) = false) :
    ota_backup_current_module n fs = (true, fs) := by
  simp only [ota_backup_current_module, h, Bool.false_eq_true, if_false]

/-- `ota_rollback_module` when a backup `v` exists: it returns `true`, the
active slot now holds `v`, the backup slot is empty, and every other path
is untouched. -/
theorem rollback_gets_of_backup (fs : FS) (n : String) (v : Bytes)
    (hv : fsGet fs (backupPath n) = some v) :
    (ota_rollback_module n fs).1 = true ∧
    fsGet (ota_rollback_module n fs).2 (currentPath n) = some v ∧
    fsGet (ota_rollback_module n fs).2 (backupPath n) = none ∧
    ∀ q, q ≠ currentPath n → q ≠ backupPath n →
      fsGet (ota_rollback_module n fs).2 q = fsGet fs q := by
  have hex : fsExists fs (backupPath n) = true := by simp [fsExists, hv]
  have hcb : currentPath n ≠ backupPath n := currentPath_ne_backupPath n
  by_cases hc : fsExists fs (currentPath n) = true
  · have h1 : fsGet (fsRemove fs (currentPath n)) (backupPath n) = some v := by
      rw [fsGet_fsRemove_other fs (currentPath n) (backupPath n) hcb]; exact hv
    simp only [ota_rollback_module, hex, hc, if_true, fsRename, h1]
    refine ⟨by trivial, ?_, ?_, ?_⟩
    · exact fsGet_fsSet_same _ _ _
    · rw [fsGet_fsSet_other _ _ _ _ hcb]
      exact fsGet_fsRemove_same _ _
    · intro q hqc hqb
      rw [fsGet_fsSet_other _ _ _ _ (fun he => hqc he.symm),
        fsGet_fsRemove_other _ _ _ (fun he => hqb he.symm),
        fsGet_fsRemove_other _ _ _ (fun he => hqc he.symm)]
  · have hc' : fsExists fs (currentPath n) = false := by
      revert hc; cases fsExists fs (currentPath n) <;> simp
    simp only [ota_rollback_module, hex, hc', if_true, Bool.false_eq_true,
      if_false, fsRename, hv]
    refine ⟨by trivial, ?_, ?_, ?_⟩
    · exact fsGet_fsSet_same _ _ _
    · rw [fsGet_fsSet_other _ _ _ _ hcb]
      exact fsGet_fsRemove_same _ _
    · intro q hqc hqb
      rw [fsGet_fsSet_other _ _ _ _ (fun he => hqc he.symm),
        fsGet_fsRemove_other _ _ _ (fun he => hqb he.symm)]

/-- `ota_rollback_module` with no backup: failure, no change. -/
theorem rollback_of_no_backup (fs : FS) (n : String)
    (h : fsExists fs (backupPath n) = false) :
    ota_rollback_module n fs = (false, fs) := by
  simp only [ota_rollback_module, h, Bool.false_eq_true, if_false]

/-- C5: for every call to `ota_rollback_module` on a module `n`, if a
backup exists it is moved into the active slot (the current active binary
is discarded, the backup slot is emptied) and the call returns `true`; if
no backup exists the call returns `false` and the filesystem - in
particular the active slot - is left unchanged. -/
theorem claim_C5 (fs : FS) (n : String) :
    (∀ v, fsGet fs (backupPath n) = some v →
      (ota_rollback_module n fs).1 = true ∧
      fsGet (ota_rollback_module n fs).2 (currentPath n) = some v ∧
      fsGet (ota_rollback_module n fs).2 (backupPath n) = none) ∧
    (fsExists fs (backupPath n) = false → ota_rollback_module n fs = (false, fs)) := by
  constructor
  · intro v hv
    obtain ⟨h1, h2, h3, _⟩ := rollback_gets_of_backup fs n v hv
    exact ⟨h1, h2, h3⟩
  · exact rollback_of_no_backup fs n

/-- C5 witness: a module with backup `[1, 2]` rolls back successfully and
an empty store refuses to roll back. -/
theorem claim_C5_witness :
    ((ota_rollback_module "sg" [(backupPath "sg", [1, 2])]).1 = true ∧
     fsGet (ota_rollback_module "sg" [(backupPath "sg", [1, 2])]).2
       (currentPath "sg") = some [1, 2] ∧
     fsGet (ota_rollback_module "sg" [(backupPath "sg", [1, 2])]).2
       (backupPath "sg") = none) ∧
    ota_rollback_module "sg" ([] : FS) = (false, []) := by
  constructor
  · exact (claim_C5 [(backupPath "sg", [1, 2])] "sg").1 [1, 2] (by decide)
  · exact (claim_C5 ([] : FS) "sg").2 (by decide)

/-- C9: backing up a module with no active binary succeeds without
creating a backup (`ota_backup_current_module` returns `true` and leaves
the filesystem unchanged), so a first-time install proceeds with no backup
slot, and a subsequent rollback for the module fails because no backup is
available. -/
theorem claim_C9 (fs : FS) (n : String)
    (hactive : fsExists fs (currentPath n) = false) :
    ota_backup_current_module n fs = (true, fs) ∧
    (fsExists fs (backupPath n) = false → ota_rollback_module n fs = (false, fs)) := by
  exact ⟨backup_of_no_active fs n hactive, rollback_of_no_backup fs n⟩

/-- C9 witness: on the empty filesystem, backup succeeds without creating
anything and rollback then fails. -/
theorem claim_C9_witness :
    ota_backup_current_module "sg" ([] : FS) = (true, []) ∧
    (fsExists ([] : FS) (backupPath "sg") = false →
      ota_rollback_module "sg" ([] : FS) = (false, [])) := by
  exact claim_C9 ([] : FS) "sg" (by decide)

theorem findPendingUpdate_head (ui : UpdateInfo) (rest : List UpdateInfo) :
    findPendingUpdate (ui :: rest) ui.module_name = some ui := by
  simp [findPendingUpdate]

/-- `ota_updater_download_and_apply_update` when the computed hash of the
downloaded binary differs from the pending update's expected digest: the
whole result, as one equation. -/
theorem apply_digest_mismatch (env : OtaEnv) (u : OTAUpdater) (fs : FS)
    (n : String) (ui : UpdateInfo) (md bin : Bytes)
    (hui : findPendingUpdate u.pending_updates n = some ui)
    (hmd : env.net (metadata_url env.server_url n) = some md)
    (hbin : env.net (binary_url env.server_url n) = some bin)
    (hmism : env.hashHex bin ≠ ui.sha256_hash) :
    ota_updater_download_and_apply_update env u fs n =
      (UPDATE_VERIFICATION_FAILED,
        fsRemove (fsRemove (fsSet (fsSet fs (metaPath n) md) (tempPath n) bin)
          (metaPath n)) (tempPath n)) := by
  simp only [ota_updater_download_and_apply_update, hui, hmd, hbin,
    fsGet_fsSet_same]
  rw [if_pos hmism]

/-- C3: for every update attempt in which the SHA-256 of the downloaded
bytes differs from the expected digest, the call returns
`UPDATE_VERIFICATION_FAILED`, the downloaded temporary files (staging
binary and metadata side-file) are deleted, and no commit happens: the
active binary and the backup slot are unchanged; in the orchestrator, the
attempt ends in `STATE_UPDATE_FAILURE` with the tracked versions and the
loader unchanged. -/
theorem claim_C3 (env : OtaEnv) (tracked : List TrackedModule)
    (ui : UpdateInfo) (rest : List UpdateInfo) (imageOf : Bytes → Option ModIface)
    (allocOK : Nat → Bool) (loader : ModuleLoader) (fs : FS) (md bin : Bytes)
    (hmd : env.net (metadata_url env.server_url ui.module_name) = some md)
    (hbin : env.net (binary_url env.server_url ui.module_name) = some bin)
    (hmism : env.hashHex bin ≠ ui.sha256_hash) :
    (ota_updater_download_and_apply_update env ⟨ui :: rest, tracked⟩ fs
        ui.module_name).1 = UPDATE_VERIFICATION_FAILED ∧
    fsGet (ota_updater_download_and_apply_update env ⟨ui :: rest, tracked⟩ fs
        ui.module_name).2 (currentPath ui.module_name) =
      fsGet fs (currentPath ui.module_name) ∧
    fsGet (ota_updater_download_and_apply_update env ⟨ui :: rest, tracked⟩ fs
        ui.module_name).2 (backupPath ui.module_name) =
      fsGet fs (backupPath ui.module_name) ∧
    fsGet (ota_updater_download_and_apply_update env ⟨ui :: rest, tracked⟩ fs
        ui.module_name).2 (tempPath ui.module_name) = none ∧
    fsGet (ota_updater_download_and_apply_update env ⟨ui :: rest, tracked⟩ fs
        ui.module_name).2 (metaPath ui.module_name) = none ∧
    (handle_downloading_update env imageOf allocOK ⟨ui :: rest, tracked⟩
        loader fs).1 = STATE_UPDATE_FAILURE ∧
    (handle_downloading_update env imageOf allocOK ⟨ui :: rest, tracked⟩
        loader fs).2.1.tracked_modules = tracked ∧
    (handle_downloading_update env imageOf allocOK ⟨ui :: rest, tracked⟩
        loader fs).2.2.1 = loader := by
  set n := ui.module_name with hn
  have hui : findPendingUpdate (⟨ui :: rest, tracked⟩ : OTAUpdater).pending_updates
      n = some ui := findPendingUpdate_head ui rest
  have happ := apply_digest_mismatch env ⟨ui :: rest, tracked⟩ fs n ui md bin hui
    hmd hbin hmism
  have hcm : currentPath n ≠ metaPath n := currentPath_ne_metaPath n
  have hct : currentPath n ≠ tempPath n := currentPath_ne_tempPath n
  have hbm : backupPath n ≠ metaPath n := backupPath_ne_metaPath n
  have hbt : backupPath n ≠ tempPath n := backupPath_ne_tempPath n
  have htm : tempPath n ≠ metaPath n := tempPath_ne_metaPath n
  refine ⟨by rw [happ], ?_, ?_, ?_, ?_, ?_, ?_, ?_⟩
  · rw [happ]
    show fsGet _ (currentPath n) = fsGet fs (currentPath n)
    rw [fsGet_fsRemove_other _ _ _ (fun he => hct he.symm),
      fsGet_fsRemove_other _ _ _ (fun he => hcm he.symm),
      fsGet_fsSet_other _ _ _ _ (fun he => hct he.symm),
      fsGet_fsSet_other _ _ _ _ (fun he => hcm he.symm)]
  · rw [happ]
    show fsGet _ (backupPath n) = fsGet fs (backupPath n)
    rw [fsGet_fsRemove_other _ _ _ (fun he => hbt he.symm),
      fsGet_fsRemove_other _ _ _ (fun he => hbm he.symm),
      fsGet_fsSet_other _ _ _ _ (fun he => hbt he.symm),
      fsGet_fsSet_other _ _ _ _ (fun he => hbm he.symm)]
  · rw [happ]
    show fsGet _ (tempPath n) = none
    exact fsGet_fsRemove_same _ _
  · rw [happ]
    show fsGet _ (metaPath n) = none
    rw [fsGet_fsRemove_other _ _ _ htm]
    exact fsGet_fsRemove_same _ _
  · simp only [handle_downloading_update, happ]
    rfl
  · simp only [handle_downloading_update, happ]
    rfl
  · simp only [handle_downloading_update, happ]
    rfl

/-- C3 witness: with a hash primitive returning `"XX"` against expected
digest `"HB"`, the sample download attempt fails verification, cleans up,
and leaves active slot, backup slot, tracker, and loader unchanged. -/
theorem claim_C3_witness :
    (ota_updater_download_and_apply_update envMismatch ⟨[uiW], []⟩ fsW
        uiW.module_name).1 = UPDATE_VERIFICATION_FAILED ∧
    fsGet (ota_updater_download_and_apply_update envMismatch ⟨[uiW], []⟩ fsW
        uiW.module_name).2 (currentPath uiW.module_name) =
      fsGet fsW (currentPath uiW.module_name) ∧
    fsGet (ota_updater_download_and_apply_update envMismatch ⟨[uiW], []⟩ fsW
        uiW.module_name).2 (backupPath uiW.module_name) =
      fsGet fsW (backupPath uiW.module_name) ∧
    fsGet (ota_updater_download_and_apply_update envMismatch ⟨[uiW], []⟩ fsW
        uiW.module_name).2 (tempPath uiW.module_name) = none ∧
    fsGet (ota_updater_download_and_apply_update envMismatch ⟨[uiW], []⟩ fsW
        uiW.module_name).2 (metaPath uiW.module_name) = none ∧
    (handle_downloading_update envMismatch imageOfC6 allocW ⟨[uiW], []⟩
        loaderC6 fsW).1 = STATE_UPDATE_FAILURE ∧
    (handle_downloading_update envMismatch imageOfC6 allocW ⟨[uiW], []⟩
        loaderC6 fsW).2.1.tracked_modules = [] ∧
    (handle_downloading_update envMismatch imageOfC6 allocW ⟨[uiW], []⟩
        loaderC6 fsW).2.2.1 = loaderC6 :=
  claim_C3 envMismatch [] uiW [] imageOfC6 allocW loaderC6 fsW [0] [1, 2]
    (by decide) (by decide) (by decide)




theorem apply_success_inv (env : OtaEnv) (u : OTAUpdater) (fs : FS) (n : String)
    (fs' : FS)
    (h : ota_updater_download_and_apply_update env u fs n = (UPDATE_SUCCESS, fs')) :
    fsGet fs' (currentPath n) = env.net (binary_url env.server_url n) ∧
    fsGet fs' (tempPath n) = none ∧
    fsGet fs' (metaPath n) = none ∧
    (fsExists fs (currentPath n) = true →
      fsGet fs' (backupPath n) = fsGet fs (currentPath n)) ∧
    (fsExists fs (currentPath n) = false →
      fsGet fs' (backupPath n) = fsGet fs (backupPath n)) := by
  simp only [ota_updater_download_and_apply_update] at h
  split at h
  · exact absurd h (by simp)
  rename_i ui hfind
  split at h
  · exact absurd h (by simp)
  rename_i md hmd
  split at h
  · exact absurd h (by simp)
  rename_i bin hbin
  split at h
  · exact absurd h (by simp)
  rename_i tmpB htmp
  split at h
  · exact absurd h (by simp)
  rename_i hhash
  split at h
  · exact absurd h (by simp)
  rename_i metaB hmeta
  split at h
  · exact absurd h (by simp)
  rename_i sigField hparse
  split at h
  · exact absurd h (by simp)
  rename_i hsigmiss
  split at h
  · exact absurd h (by simp)
  rename_i hsigok
  set fs2 := fsSet (fsSet fs (metaPath n) md) (tempPath n) bin with hfs2
  have hcm : currentPath n ≠ metaPath n := currentPath_ne_metaPath n
  have hct : currentPath n ≠ tempPath n := currentPath_ne_tempPath n
  have hcb : currentPath n ≠ backupPath n := currentPath_ne_backupPath n
  have hbm : backupPath n ≠ metaPath n := backupPath_ne_metaPath n
  have hbt : backupPath n ≠ tempPath n := backupPath_ne_tempPath n
  have htm : tempPath n ≠ metaPath n := tempPath_ne_metaPath n
  have h2tmp : fsGet fs2 (tempPath n) = some bin := fsGet_fsSet_same _ _ _
  have h2cur : fsGet fs2 (currentPath n) = fsGet fs (currentPath n) := by
    rw [hfs2, fsGet_fsSet_other _ _ _ _ (Ne.symm hct),
      fsGet_fsSet_other _ _ _ _ (Ne.symm hcm)]
  have h2bak : fsGet fs2 (backupPath n) = fsGet fs (backupPath n) := by
    rw [hfs2, fsGet_fsSet_other _ _ _ _ (Ne.symm hbt),
      fsGet_fsSet_other _ _ _ _ (Ne.symm hbm)]
  have h2ex : fsExists fs2 (currentPath n) = fsExists fs (currentPath n) := by
    rw [fsExists, fsExists, h2cur]
  by_cases hA : fsExists fs2 (currentPath n) = true
  · obtain ⟨a, ha2⟩ : ∃ a, fsGet fs2 (currentPath n) = some a := by
      rw [fsExists] at hA
      rcases hg : fsGet fs2 (currentPath n) with _ | a
      · rw [hg] at hA; simp at hA
      · exact ⟨a, rfl⟩
    have hafs : fsGet fs (currentPath n) = some a := by rw [← h2cur]; exact ha2
    obtain ⟨hbok, hbbak, hbcur, hbother⟩ := backup_gets_of_active fs2 n a ha2
    rw [if_pos hA, if_neg (by simp [fsExists, hbcur])] at h
    have hXtmp : fsGet (ota_backup_current_module n fs2).2 (tempPath n) = some bin := by
      rw [hbother _ hbt.symm hct.symm]; exact h2tmp
    rw [fsRename] at h
    rw [hXtmp] at h
    simp only [Prod.mk.injEq, true_and] at h
    subst h
    refine ⟨?_, ?_, ?_, ?_, ?_⟩
    · rw [fsGet_fsRemove_other _ _ _ (Ne.symm hcm), fsGet_fsSet_same, hbin]
    · rw [fsGet_fsRemove_other _ _ _ (Ne.symm htm),
        fsGet_fsSet_other _ _ _ _ hct, fsGet_fsRemove_same]
    · rw [fsGet_fsRemove_same]
    · intro _
      rw [fsGet_fsRemove_other _ _ _ (Ne.symm hbm),
        fsGet_fsSet_other _ _ _ _ hcb, fsGet_fsRemove_other _ _ _ hbt.symm,
        hbbak, hafs]
    · intro hfalse
      rw [← h2ex, hA] at hfalse
      exact absurd hfalse (by simp)
  · have hA' : fsExists fs2 (currentPath n) = false := by
      revert hA; cases fsExists fs2 (currentPath n) <;> simp
    rw [if_neg (by simp [hA']), if_neg (by simp [hA'])] at h
    rw [fsRename, h2tmp] at h
    simp only [Prod.mk.injEq, true_and] at h
    subst h
    refine ⟨?_, ?_, ?_, ?_, ?_⟩
    · rw [fsGet_fsRemove_other _ _ _ (Ne.symm hcm), fsGet_fsSet_same, hbin]
    · rw [fsGet_fsRemove_other _ _ _ (Ne.symm htm),
        fsGet_fsSet_other _ _ _ _ hct, fsGet_fsRemove_same]
    · rw [fsGet_fsRemove_same]
    · intro htrue
      rw [← h2ex] at htrue
      exact absurd htrue hA
    · intro _
      rw [fsGet_fsRemove_other _ _ _ (Ne.symm hbm),
        fsGet_fsSet_other _ _ _ _ hcb, fsGet_fsRemove_other _ _ _ hbt.symm,
        h2bak]

/-- C4: whenever an update commits after verification succeeds (the call
returns `UPDATE_SUCCESS`) and an active binary existed, the store has moved
that active binary into the backup slot (overwriting any prior backup) and
the downloaded staging binary into the active slot, with the staging file
gone. -/
theorem claim_C4 (env : OtaEnv) (u : OTAUpdater) (fs : FS) (n : String) (fj : FS)
    (h : ota_updater_download_and_apply_update env u fs n = (UPDATE_SUCCESS, fj))
    (hactive : fsExists fs (currentPath n) = true) :
    fsGet fj (backupPath n) = fsGet fs (currentPath n) ∧
    fsGet fj (currentPath n) = env.net (binary_url env.server_url n) ∧
    fsGet fj (tempPath n) = none := by
  obtain ⟨h1, h2, _, h4, _⟩ := apply_success_inv env u fs n fj h
  exact ⟨h4 hactive, h1, h2⟩

/-- C4 witness: the sample verified download of `speed_governor` commits,
moving active `[9]` to backup and installing the downloaded `[1, 2]`. -/
theorem claim_C4_witness :
    fsGet (ota_updater_download_and_apply_update envW uW fsW "speed_governor").2
      (backupPath "speed_governor") = fsGet fsW (currentPath "speed_governor") ∧
    fsGet (ota_updater_download_and_apply_update envW uW fsW "speed_governor").2
      (currentPath "speed_governor") = envW.net (binary_url envW.server_url
        "speed_governor") ∧
    fsGet (ota_updater_download_and_apply_update envW uW fsW "speed_governor").2
      (tempPath "speed_governor") = none :=
  claim_C4 envW uW fsW "speed_governor"
    (ota_updater_download_and_apply_update envW uW fsW "speed_governor").2
    (by decide) (by decide)


/-- After the digest check passes and the side-file yields a real (non
placeholder, non missing) signature `s`, the outcome of
`ota_updater_download_and_apply_update` is decided by the signature check
applied to `s`: the side-file content is a verification input. -/
theorem apply_sig_outcome (env : OtaEnv) (u : OTAUpdater) (fs : FS) (n : String)
    (ui : UpdateInfo) (md bin : Bytes) (s : String)
    (hui : findPendingUpdate u.pending_updates n = some ui)
    (hmd : env.net (metadata_url env.server_url n) = some md)
    (hbin : env.net (binary_url env.server_url n) = some bin)
    (hhash : env.hashHex bin = ui.sha256_hash)
    (hparse : env.parseMeta md = some (some s))
    (hs1 : s ≠ "missing") (hs2 : s ≠ "placeholder-for-demo-signature") :
    (ota_updater_download_and_apply_update env u fs n).1 =
      (if env.sigChk bin s env.public_key_pem then UPDATE_SUCCESS
       else UPDATE_VERIFICATION_FAILED) := by
  have hcm : currentPath n ≠ metaPath n := currentPath_ne_metaPath n
  have hct : currentPath n ≠ tempPath n := currentPath_ne_tempPath n
  have hcb : currentPath n ≠ backupPath n := currentPath_ne_backupPath n
  have hbt : backupPath n ≠ tempPath n := backupPath_ne_tempPath n
  have htm : tempPath n ≠ metaPath n := tempPath_ne_metaPath n
  have hmetaget : fsGet (fsSet (fsSet fs (metaPath n) md) (tempPath n) bin)
      (metaPath n) = some md := by
    rw [fsGet_fsSet_other _ _ _ _ htm, fsGet_fsSet_same]
  have hverify : verify_signature env.sigChk
      (fsSet (fsSet fs (metaPath n) md) (tempPath n) bin) (tempPath n) s
      env.public_key_pem = env.sigChk bin s env.public_key_pem := by
    rw [verify_signature, if_neg hs2, fsGet_fsSet_same]
  simp only [ota_updater_download_and_apply_update, hui, hmd, hbin,
    fsGet_fsSet_same, hmetaget, hparse]
  simp only [if_neg (show ¬ (env.hashHex bin ≠ ui.sha256_hash) by simp [hhash])]
  simp only [Option.getD_some]
  simp only [if_neg hs1]
  simp only [hverify]
  set fs2 := fsSet (fsSet fs (metaPath n) md) (tempPath n) bin with hfs2
  by_cases hx : env.sigChk bin s env.public_key_pem = true
  · rw [if_pos hx]
    rw [if_neg (by simp [hx])]
    have h2tmp : fsGet fs2 (tempPath n) = some bin := fsGet_fsSet_same _ _ _
    by_cases hA : fsExists fs2 (currentPath n) = true
    · obtain ⟨a, ha2⟩ : ∃ a, fsGet fs2 (currentPath n) = some a := by
        rw [fsExists] at hA
        rcases hg : fsGet fs2 (currentPath n) with _ | a
        · rw [hg] at hA; simp at hA
        · exact ⟨a, rfl⟩
      obtain ⟨hbok, hbbak, hbcur, hbother⟩ := backup_gets_of_active fs2 n a ha2
      rw [if_pos hA, if_neg (by simp [fsExists, hbcur])]
      have hXtmp : fsGet (ota_backup_current_module n fs2).2 (tempPath n) =
          some bin := by
        rw [hbother _ hbt.symm hct.symm]; exact h2tmp
      rw [fsRename, hXtmp]
    · rw [if_neg hA, if_neg hA, fsRename, h2tmp]
  · have hx' : env.sigChk bin s env.public_key_pem = false := by
      revert hx; cases env.sigChk bin s env.public_key_pem <;> simp
    have hcnd : ¬ env.sigChk bin s env.public_key_pem = true := by simp [hx']
    rw [if_pos hcnd, if_neg hcnd]

/-- Every pending update built by the manifest scan carries the placeholder
digest, never a manifest value. -/
theorem sha_placeholder_of_mem_loop (tracked : List TrackedModule)
    (manifest : Manifest) :
    ∀ mods acc ui, ui ∈ parseManifestLoop tracked manifest mods acc →
      ui ∈ acc ∨ ui.sha256_hash = "will_be_fetched_later" := by
  intro mods
  induction mods with
  | nil =>
    intro acc ui h
    exact Or.inl (by simpa [parseManifestLoop] using h)
  | cons m rest ih =>
    intro acc ui h
    simp only [parseManifestLoop] at h
    by_cases hlen : acc.length < 8
    · rw [if_pos hlen] at h
      rcases hlk : manifest.lookup m with _ | av
      · simp only [hlk] at h
        exact ih _ _ h
      · simp only [hlk] at h
        by_cases hne : av ≠ currentVersionFor tracked m
        · simp only [if_pos hne] at h
          rcases ih _ _ h with hacc | hsha
          · rcases List.mem_append.mp hacc with h1 | h2
            · exact Or.inl h1
            · right
              simp only [List.mem_singleton] at h2
              rw [h2]
              rfl
          · exact Or.inr hsha
        · simp only [if_neg hne] at h
          exact ih _ _ h
    · rw [if_neg hlen] at h
      exact Or.inl h

/-- C1 (amended): the verification inputs are not the manifest values.
The expected digest attached to every pending update enqueued during a
check is the constant placeholder `"will_be_fetched_later"` - the manifest
digest is never read - and when the digest check passes, the signature used
for verification is the one extracted from the downloaded per-artifact
`metadata.json` side-file: the update succeeds or fails according to the
signature check applied to that side-file-derived value. -/
theorem claim_C1 :
    (∀ tracked manifest ui, ui ∈ parse_manifest_for_updates tracked manifest →
      ui.sha256_hash = "will_be_fetched_later") ∧
    (∀ (env : OtaEnv) (u : OTAUpdater) (fs : FS) (n : String) (ui : UpdateInfo)
      (md bin : Bytes) (s : String),
      findPendingUpdate u.pending_updates n = some ui →
      env.net (metadata_url env.server_url n) = some md →
      env.net (binary_url env.server_url n) = some bin →
      env.hashHex bin = ui.sha256_hash →
      env.parseMeta md = some (some s) →
      s ≠ "missing" → s ≠ "placeholder-for-demo-signature" →
      (ota_updater_download_and_apply_update env u fs n).1 =
        (if env.sigChk bin s env.public_key_pem then UPDATE_SUCCESS
         else UPDATE_VERIFICATION_FAILED)) := by
  constructor
  · intro tracked manifest ui h
    rcases sha_placeholder_of_mem_loop tracked manifest supported_modules [] ui h with
      habs | hsha
    · exact absurd habs (List.not_mem_nil ui)
    · exact hsha
  · intro env u fs n ui md bin s hui hmd hbin hhash hparse hs1 hs2
    exact apply_sig_outcome env u fs n ui md bin s hui hmd hbin hhash hparse hs1 hs2

/-- C1 counterexample: the claim fails on the code at a concrete input.
The single pending update enqueued from a manifest carries the placeholder
digest `"will_be_fetched_later"` instead of a manifest digest, and two runs
that download the same binary and differ only in the side-file
`metadata.json` body (signature `"goodsig"` versus `"badsig"`) verify
differently: the side-file is a verification input. -/
theorem claim_C1_counterexample :
    (parse_manifest_for_updates [] [("speed_governor", "1.1.0")]).map
      (fun ui => ui.sha256_hash) = ["will_be_fetched_later"] ∧
    envC1good.net (binary_url "https://s" "speed_governor") =
      envC1bad.net (binary_url "https://s" "speed_governor") ∧
    envC1good.net (metadata_url "https://s" "speed_governor") = some [0] ∧
    envC1bad.net (metadata_url "https://s" "speed_governor") = some [1] ∧
    (ota_updater_download_and_apply_update envC1good uW fsW
      "speed_governor").1 = UPDATE_SUCCESS ∧
    (ota_updater_download_and_apply_update envC1bad uW fsW
      "speed_governor").1 = UPDATE_VERIFICATION_FAILED := by
  decide

/-- C1 witness: the amended theorem applied at the sample inputs. -/
theorem claim_C1_witness :
    (mkPendingUpdate "speed_governor" "0.0.0" "1.1.0").sha256_hash =
      "will_be_fetched_later" ∧
    (ota_updater_download_and_apply_update envC1good uW fsW
      "speed_governor").1 =
      (if envC1good.sigChk [1, 2] "goodsig" envC1good.public_key_pem then
        UPDATE_SUCCESS else UPDATE_VERIFICATION_FAILED) := by
  constructor
  · exact claim_C1.1 [] [("speed_governor", "1.1.0")]
      (mkPendingUpdate "speed_governor" "0.0.0" "1.1.0") (by decide)
  · exact claim_C1.2 envC1good uW fsW "speed_governor" uiW [0] [1, 2] "goodsig"
      (by decide) (by decide) (by decide) (by decide) (by decide) (by decide)
      (by decide)

theorem binary_url_length (s n : String) :
    (binary_url s n).length = s.length + 2 * n.length + 43 := by
  have h1 : "/storage/v1/object/ota-modules/".length = 31 := rfl
  have h2 : "/latest/".length = 8 := rfl
  have h3 : ".bin".length = 4 := rfl
  simp [binary_url, String.length_append, h1, h2, h3]; omega

theorem immutable_artifact_path_spec_length (s n v : String) :
    (immutable_artifact_path_spec s n v).length =
      s.length + 2 * n.length + v.length + 8 := by
  have h1 : "/".length = 1 := rfl
  have h2 : "-v".length = 2 := rfl
  have h3 : ".bin".length = 4 := rfl
  simp [immutable_artifact_path_spec, String.length_append, h1, h2, h3]; omega

/-- C8 (amended): the orchestrator always downloads from the mutable
latest-pointer path `<base>/storage/v1/object/ota-modules/<name>/latest/`
regardless of the manifest version: the result of
`ota_updater_download_and_apply_update` depends on the network only through
the two latest-path URLs, and the latest-path binary URL never coincides
with the spec's immutable per-version artifact path (for any version string
of bounded length, in particular any version that fits the 32-byte version
buffers). -/
theorem claim_C8 (env : OtaEnv) (net2 : String → Option Bytes) (u : OTAUpdater)
    (fs : FS) (n : String)
    (hmeta : net2 (metadata_url env.server_url n) =
      env.net (metadata_url env.server_url n))
    (hbin : net2 (binary_url env.server_url n) =
      env.net (binary_url env.server_url n)) :
    ota_updater_download_and_apply_update { env with net := net2 } u fs n =
      ota_updater_download_and_apply_update env u fs n ∧
    ∀ version : String, version.length ≤ 34 →
      binary_url env.server_url n ≠
        immutable_artifact_path_spec env.server_url n version := by
  constructor
  · simp only [ota_updater_download_and_apply_update, hmeta, hbin]
  · intro version hv
    refine ne_of_length_ne ?_
    rw [binary_url_length, immutable_artifact_path_spec_length]
    omega

/-- C8 witness: the amended theorem at the sample environment and a network
that agrees with it on the two latest-path URLs. -/
theorem claim_C8_witness :
    ota_updater_download_and_apply_update { envW with net := netW2 } uW fsW
      "speed_governor" =
      ota_updater_download_and_apply_update envW uW fsW "speed_governor" ∧
    ∀ version : String, version.length ≤ 34 →
      binary_url envW.server_url "speed_governor" ≠
        immutable_artifact_path_spec envW.server_url "speed_governor" version :=
  claim_C8 envW netW2 uW fsW "speed_governor" (by decide) (by decide)

/-- C8 counterexample: the claim fails on the code at a concrete input.
With the module listed in the manifest at version 1.1.0, the binary is
fetched from the mutable latest path - the run succeeds although the
network serves nothing at the spec's immutable versioned path, and the URL
actually used differs from that path. -/
theorem claim_C8_counterexample :
    binary_url "https://s" "speed_governor" ≠
      immutable_artifact_path_spec "https://s" "speed_governor" "1.1.0" ∧
    netW (immutable_artifact_path_spec "https://s" "speed_governor" "1.1.0") =
      none ∧
    (ota_updater_download_and_apply_update envW uW fsW "speed_governor").1 =
      UPDATE_SUCCESS := by
  refine ⟨by decide, by decide, by decide⟩

/-- The manifest scan, written out over the two supported modules: the
8-entry bound of the pending array can never bind. -/
theorem parse_manifest_eq (tracked : List TrackedModule) (manifest : Manifest) :
    parse_manifest_for_updates tracked manifest =
      (match manifest.lookup "speed_governor" with
       | some av =>
         if av ≠ currentVersionFor tracked "speed_governor" then
           [mkPendingUpdate "speed_governor"
             (currentVersionFor tracked "speed_governor") av]
         else []
       | none => []) ++
      (match manifest.lookup "distance_sensor" with
       | some av =>
         if av ≠ currentVersionFor tracked "distance_sensor" then
           [mkPendingUpdate "distance_sensor"
             (currentVersionFor tracked "distance_sensor") av]
         else []
       | none => []) := by
  rw [parse_manifest_for_updates, supported_modules]
  rcases h1 : manifest.lookup "speed_governor" with _ | av1 <;>
    rcases h2 : manifest.lookup "distance_sensor" with _ | av2
  · simp [parseManifestLoop, h1, h2]
  · by_cases hne2 : av2 ≠ currentVersionFor tracked "distance_sensor" <;>
      simp [parseManifestLoop, h1, h2, hne2]
  · by_cases hne1 : av1 ≠ currentVersionFor tracked "speed_governor" <;>
      simp [parseManifestLoop, h1, h2, hne1]
  · by_cases hne1 : av1 ≠ currentVersionFor tracked "speed_governor" <;>
      by_cases hne2 : av2 ≠ currentVersionFor tracked "distance_sensor" <;>
      simp [parseManifestLoop, h1, h2, hne1, hne2]

/-- C2 (amended): during check-for-updates, a pending update for module
`n` is enqueued if and only if `n` is one of the two supported modules,
the manifest lists it, and its manifest `latest_version` differs as a
string from the tracked version (with baseline `"0.0.0"` for untracked -
or literally `"unknown"`-tracked - modules).  The comparison is plain
string inequality, not a semantic-version order, so downgrades and
malformed versions are enqueued as well. -/
theorem claim_C2 (tracked : List TrackedModule) (manifest : Manifest)
    (n : String) :
    (∃ ui ∈ parse_manifest_for_updates tracked manifest, ui.module_name = n) ↔
      (n ∈ supported_modules ∧ ∃ av, manifest.lookup n = some av ∧
        av ≠ currentVersionFor tracked n) := by
  rw [parse_manifest_eq]
  constructor
  · rintro ⟨ui, hmem, hname⟩
    rcases List.mem_append.mp hmem with hin | hin
    · rcases h1 : manifest.lookup "speed_governor" with _ | av1
      · simp only [h1] at hin; simp at hin
      · simp only [h1] at hin
        by_cases hne1 : av1 ≠ currentVersionFor tracked "speed_governor"
        · rw [if_pos hne1] at hin
          simp only [List.mem_singleton] at hin
          subst hin
          have : n = "speed_governor" := by
            rw [← hname]; rfl
          subst this
          exact ⟨by simp [supported_modules], av1, h1, hne1⟩
        · rw [if_neg hne1] at hin; simp at hin
    · rcases h2 : manifest.lookup "distance_sensor" with _ | av2
      · simp only [h2] at hin; simp at hin
      · simp only [h2] at hin
        by_cases hne2 : av2 ≠ currentVersionFor tracked "distance_sensor"
        · rw [if_pos hne2] at hin
          simp only [List.mem_singleton] at hin
          subst hin
          have : n = "distance_sensor" := by
            rw [← hname]; rfl
          subst this
          exact ⟨by simp [supported_modules], av2, h2, hne2⟩
        · rw [if_neg hne2] at hin; simp at hin
  · rintro ⟨hsup, av, hlk, hne⟩
    rcases (by simpa [supported_modules] using hsup :
        n = "speed_governor" ∨ n = "distance_sensor") with hn | hn
    · subst hn
      refine ⟨mkPendingUpdate "speed_governor"
        (currentVersionFor tracked "speed_governor") av, ?_, rfl⟩
      apply List.mem_append.mpr
      left
      simp only [hlk, if_pos hne]
      simp
    · subst hn
      refine ⟨mkPendingUpdate "distance_sensor"
        (currentVersionFor tracked "distance_sensor") av, ?_, rfl⟩
      apply List.mem_append.mpr
      right
      simp only [hlk, if_pos hne]
      simp

/-- C2 witness: the amended characterization at a concrete manifest and
tracker (an equal-version module is not enqueued; the baseline for an
untracked module is `"0.0.0"`). -/
theorem claim_C2_witness :
    ((∃ ui ∈ parse_manifest_for_updates [⟨"speed_governor", "1.1.0"⟩]
        [("speed_governor", "1.1.0"), ("distance_sensor", "1.0.0")],
      ui.module_name = "speed_governor") ↔
      ("speed_governor" ∈ supported_modules ∧ ∃ av,
        List.lookup "speed_governor"
          [("speed_governor", "1.1.0"), ("distance_sensor", "1.0.0")] = some av ∧
        av ≠ currentVersionFor [⟨"speed_governor", "1.1.0"⟩] "speed_governor")) ∧
    ((∃ ui ∈ parse_manifest_for_updates [⟨"speed_governor", "1.1.0"⟩]
        [("speed_governor", "1.1.0"), ("distance_sensor", "1.0.0")],
      ui.module_name = "distance_sensor") ↔
      ("distance_sensor" ∈ supported_modules ∧ ∃ av,
        List.lookup "distance_sensor"
          [("speed_governor", "1.1.0"), ("distance_sensor", "1.0.0")] = some av ∧
        av ≠ currentVersionFor [⟨"speed_governor", "1.1.0"⟩] "distance_sensor")) :=
  ⟨claim_C2 [⟨"speed_governor", "1.1.0"⟩]
      [("speed_governor", "1.1.0"), ("distance_sensor", "1.0.0")] "speed_governor",
    claim_C2 [⟨"speed_governor", "1.1.0"⟩]
      [("speed_governor", "1.1.0"), ("distance_sensor", "1.0.0")] "distance_sensor"⟩

/-- C2 counterexample: the claim fails on the code at a concrete input.
A manifest offering 0.9.0 against a tracked 1.0.0 is not a semantic-version
upgrade, yet the scan enqueues a pending update for it, because the code
compares version strings for inequality only. -/
theorem claim_C2_counterexample :
    semver_gt_spec "0.9.0" "1.0.0" = false ∧
    (parse_manifest_for_updates [⟨"speed_governor", "1.0.0"⟩]
        [("speed_governor", "0.9.0")]).map
      (fun ui => (ui.module_name, ui.available_version)) =
      [("speed_governor", "0.9.0")] := by
  decide

/-- `ota_updater_download_and_apply_update` reads the updater state only
through the pending-queue lookup of the requested module. -/
theorem apply_eq_of_findPendingUpdate_eq (env : OtaEnv) (u u2 : OTAUpdater)
    (fs : FS) (n : String)
    (h : findPendingUpdate u.pending_updates n =
      findPendingUpdate u2.pending_updates n) :
    ota_updater_download_and_apply_update env u fs n =
      ota_updater_download_and_apply_update env u2 fs n := by
  unfold ota_updater_download_and_apply_update
  rw [h]

/-- Re-tracking a version and then clearing the queue gives the same
updater regardless of the queue contents. -/
theorem clear_set_eq (tracked : List TrackedModule) (p1 p2 : List UpdateInfo)
    (n v : String) :
    ota_updater_clear_pending_updates
        (ota_updater_set_module_version ⟨p1, tracked⟩ n v).2 =
      ota_updater_clear_pending_updates
        (ota_updater_set_module_version ⟨p2, tracked⟩ n v).2 := by
  simp only [ota_updater_set_module_version, ota_updater_clear_pending_updates]
  rcases h : updateTracked tracked n v with _ | T
  · simp only [h]
    by_cases hl : tracked.length < 8 <;> simp [hl]
  · simp only [h]

/-- One pass of the `STATE_DOWNLOADING_UPDATE` branch depends only on the
head of the pending queue: the tail is never applied. -/
theorem handle_head_only (env : OtaEnv) (imageOf : Bytes → Option ModIface)
    (allocOK : Nat → Bool) (tracked : List TrackedModule) (h1 : UpdateInfo)
    (t : List UpdateInfo) (loader : ModuleLoader) (fs : FS) :
    handle_downloading_update env imageOf allocOK ⟨h1 :: t, tracked⟩ loader fs =
      handle_downloading_update env imageOf allocOK ⟨[h1], tracked⟩ loader fs := by
  have happ : ota_updater_download_and_apply_update env ⟨h1 :: t, tracked⟩ fs
      h1.module_name =
      ota_updater_download_and_apply_update env ⟨[h1], tracked⟩ fs
        h1.module_name :=
    apply_eq_of_findPendingUpdate_eq _ _ _ _ _
      (by rw [findPendingUpdate_head, findPendingUpdate_head])
  simp only [handle_downloading_update]
  rw [happ]
  rcases hst : ota_updater_download_and_apply_update env ⟨[h1], tracked⟩ fs
    h1.module_name with ⟨st, fs2⟩
  simp only [hst]
  by_cases hsucc : st = UPDATE_SUCCESS
  · simp only [hsucc, eq_self_iff_true, if_true]
    rcases hrl : module_loader_reload_module fs2 imageOf allocOK loader
      h1.module_name with ⟨rst, loader2⟩
    simp only [hrl]
    by_cases hr : rst = MODULE_LOAD_SUCCESS
    · simp only [hr, eq_self_iff_true, if_true]
      rcases hgm : module_loader_get_module loader2 h1.module_name with _ | m
      · simp [hgm, ota_updater_clear_pending_updates]
      · simp only [hgm]
        rw [clear_set_eq tracked (h1 :: t) [h1] h1.module_name m.version]
    · simp [if_neg hr, ota_updater_clear_pending_updates]
  · simp [if_neg hsucc, ota_updater_clear_pending_updates]

/-- Every pass of the `STATE_DOWNLOADING_UPDATE` branch clears the whole
pending queue. -/
theorem handle_clears_pending (env : OtaEnv) (imageOf : Bytes → Option ModIface)
    (allocOK : Nat → Bool) (ota : OTAUpdater) (loader : ModuleLoader) (fs : FS) :
    (handle_downloading_update env imageOf allocOK ota loader
      fs).2.1.pending_updates = [] := by
  simp only [handle_downloading_update]
  rcases hp : ota.pending_updates with _ | ⟨h1, t1⟩
  · rfl
  · rcases hst : ota_updater_download_and_apply_update env ota fs h1.module_name
      with ⟨st, fs2⟩
    simp only [hst]
    by_cases hsucc : st = UPDATE_SUCCESS
    · simp only [hsucc, eq_self_iff_true, if_true]
      rcases hrl : module_loader_reload_module fs2 imageOf allocOK loader
        h1.module_name with ⟨rst, loader2⟩
      simp only [hrl]
      by_cases hr : rst = MODULE_LOAD_SUCCESS
      · simp only [hr, eq_self_iff_true, if_true]
        rcases hgm : module_loader_get_module loader2 h1.module_name with _ | m
        · simp [hgm, ota_updater_clear_pending_updates]
        · simp [hgm, ota_updater_clear_pending_updates]
      · simp [if_neg hr, ota_updater_clear_pending_updates]
    · simp [if_neg hsucc, ota_updater_clear_pending_updates]

/-- Every pending update built by the manifest scan carries priority
`"normal"`; the manifest priority field is never read. -/
theorem priority_of_mem_loop (tracked : List TrackedModule)
    (manifest : Manifest) :
    ∀ mods acc ui, ui ∈ parseManifestLoop tracked manifest mods acc →
      ui ∈ acc ∨ ui.priority = "normal" := by
  intro mods
  induction mods with
  | nil =>
    intro acc ui h
    exact Or.inl (by simpa [parseManifestLoop] using h)
  | cons m rest ih =>
    intro acc ui h
    simp only [parseManifestLoop] at h
    by_cases hlen : acc.length < 8
    · rw [if_pos hlen] at h
      rcases hlk : manifest.lookup m with _ | av
      · simp only [hlk] at h
        exact ih _ _ h
      · simp only [hlk] at h
        by_cases hne : av ≠ currentVersionFor tracked m
        · simp only [if_pos hne] at h
          rcases ih _ _ h with hacc | hpr
          · rcases List.mem_append.mp hacc with ha | hb
            · exact Or.inl ha
            · right
              simp only [List.mem_singleton] at hb
              rw [hb]
              rfl
          · exact Or.inr hpr
        · simp only [if_neg hne] at h
          exact ih _ _ h
    · rw [if_neg hlen] at h
      exact Or.inl h

/-- C6 (amended): the orchestrator applies at most one module update per
pass of `STATE_DOWNLOADING_UPDATE` - only the first pending update, after
which it clears the entire pending queue, discarding the remaining ones
instead of draining them.  The queue order is the fixed manifest-scan order
(`speed_governor` before `distance_sensor`); priority is never consulted
(every enqueued update carries priority `"normal"`), and no
lexicographic-name tie-break exists. -/
theorem claim_C6 :
    (∀ (env : OtaEnv) (imageOf : Bytes → Option ModIface) (allocOK : Nat → Bool)
      (tracked : List TrackedModule) (h1 : UpdateInfo) (t : List UpdateInfo)
      (loader : ModuleLoader) (fs : FS),
      handle_downloading_update env imageOf allocOK ⟨h1 :: t, tracked⟩ loader
          fs =
        handle_downloading_update env imageOf allocOK ⟨[h1], tracked⟩ loader
          fs) ∧
    (∀ (env : OtaEnv) (imageOf : Bytes → Option ModIface) (allocOK : Nat → Bool)
      (ota : OTAUpdater) (loader : ModuleLoader) (fs : FS),
      (handle_downloading_update env imageOf allocOK ota loader
        fs).2.1.pending_updates = []) ∧
    (∀ tracked manifest,
      ((parse_manifest_for_updates tracked manifest).map
        (fun ui => ui.module_name)).Sublist supported_modules) ∧
    (∀ tracked manifest ui, ui ∈ parse_manifest_for_updates tracked manifest →
      ui.priority = "normal") := by
  refine ⟨handle_head_only, handle_clears_pending, ?_, ?_⟩
  · intro tracked manifest
    rw [parse_manifest_eq]
    rcases h1 : manifest.lookup "speed_governor" with _ | av1 <;>
      rcases h2 : manifest.lookup "distance_sensor" with _ | av2
    · simp [supported_modules]
    · by_cases hne2 : av2 ≠ currentVersionFor tracked "distance_sensor" <;>
        simp [supported_modules, hne2, mkPendingUpdate]
      all_goals decide
    · by_cases hne1 : av1 ≠ currentVersionFor tracked "speed_governor" <;>
        simp [supported_modules, hne1, mkPendingUpdate]
      all_goals decide
    · by_cases hne1 : av1 ≠ currentVersionFor tracked "speed_governor" <;>
        by_cases hne2 : av2 ≠ currentVersionFor tracked "distance_sensor" <;>
        simp [supported_modules, hne1, hne2, mkPendingUpdate]
      all_goals decide
  · intro tracked manifest ui h
    rcases priority_of_mem_loop tracked manifest supported_modules [] ui h with
      habs | hpr
    · exact absurd habs (List.not_mem_nil ui)
    · exact hpr

/-- C6 witness: the amended theorem instantiated at the two-update C6
scenario. -/
theorem claim_C6_witness :
    (handle_downloading_update envC6 imageOfC6 allocW
        ⟨otaC6.pending_updates.take 1 ++ otaC6.pending_updates.drop 1,
          trackedC6⟩ loaderC6 fsC6 =
      handle_downloading_update envC6 imageOfC6 allocW
        ⟨otaC6.pending_updates.take 1, trackedC6⟩ loaderC6 fsC6) ∧
    (handle_downloading_update envC6 imageOfC6 allocW otaC6 loaderC6
      fsC6).2.1.pending_updates = [] ∧
    ((parse_manifest_for_updates trackedC6 manifestC6).map
      (fun ui => ui.module_name)).Sublist supported_modules := by
  refine ⟨?_, claim_C6.2.1 envC6 imageOfC6 allocW otaC6 loaderC6 fsC6,
    claim_C6.2.2.1 trackedC6 manifestC6⟩
  have hpend : otaC6.pending_updates =
      mkPendingUpdate "speed_governor" "1.0.0" "1.1.0" ::
        [mkPendingUpdate "distance_sensor" "1.0.0" "1.1.0"] := by decide
  have := claim_C6.1 envC6 imageOfC6 allocW trackedC6
    (mkPendingUpdate "speed_governor" "1.0.0" "1.1.0")
    [mkPendingUpdate "distance_sensor" "1.0.0" "1.1.0"] loaderC6 fsC6
  simpa [hpend] using this

/-- C6 counterexample: the claim fails on the code at a concrete input.
With both supported modules pending at equal (`"normal"`) priority,
`distance_sensor` precedes `speed_governor` lexicographically (its first
character is smaller), yet the pass
applies `speed_governor` (the manifest-scan head) - installing its new
binary while leaving `distance_sensor`'s binary untouched - and clears the
queue, so the second update is discarded rather than drained. -/
theorem claim_C6_counterexample :
    (otaC6.pending_updates.map (fun ui => ui.module_name)) =
      ["speed_governor", "distance_sensor"] ∧
    (otaC6.pending_updates.map (fun ui => ui.priority)) =
      ["normal", "normal"] ∧
    ("distance_sensor".data.head? = some 'd' ∧
      "speed_governor".data.head? = some 's' ∧ Char.toNat 'd' < Char.toNat 's') ∧
    (handle_downloading_update envC6 imageOfC6 allocW otaC6 loaderC6 fsC6).1 =
      STATE_UPDATE_SUCCESS ∧
    (handle_downloading_update envC6 imageOfC6 allocW otaC6 loaderC6
      fsC6).2.1.pending_updates = [] ∧
    fsGet (handle_downloading_update envC6 imageOfC6 allocW otaC6 loaderC6
      fsC6).2.2.2 (currentPath "speed_governor") = some [1] ∧
    fsGet (handle_downloading_update envC6 imageOfC6 allocW otaC6 loaderC6
      fsC6).2.2.2 (currentPath "distance_sensor") = some [8] := by
  decide

theorem find_loaded_none_iff (ms : List LoadedModule) (n : String) :
    find_loaded_module ms n = none ↔
      ∀ m ∈ ms, ¬(m.is_active = true ∧ m.name = n) := by
  induction ms with
  | nil => simp [find_loaded_module]
  | cons m rest ih =>
    by_cases hm : m.is_active = true ∧ m.name = n
    · simp [find_loaded_module, hm]
    · simp only [find_loaded_module, if_neg hm]
      rw [ih]
      constructor
      · intro h m2 hm2
        rcases List.mem_cons.mp hm2 with he | hr
        · rw [he]; exact hm
        · exact h m2 hr
      · intro h m2 hm2
        exact h m2 (List.mem_cons_of_mem m hm2)

theorem removeFirstModule_sublist (ms : List LoadedModule) (n : String) :
    (removeFirstModule ms n).Sublist ms := by
  induction ms with
  | nil => simp [removeFirstModule]
  | cons m rest ih =>
    by_cases hm : m.is_active = true ∧ m.name = n
    · simp only [removeFirstModule, if_pos hm]
      exact List.sublist_cons_self m rest
    · simp only [removeFirstModule, if_neg hm]
      exact List.Sublist.cons₂ m ih

theorem activeCount_le_one_aux (n : String) :
    ∀ ms : List LoadedModule, (∀ m ∈ ms, m.is_active = true) →
      (ms.map (fun m => m.name)).Nodup →
      (ms.filter (fun m => m.is_active && m.name == n)).length ≤ 1 := by
  intro ms
  induction ms with
  | nil => intro _ _; simp
  | cons m rest ih =>
    intro hact hnodup
    simp only [List.map_cons, List.nodup_cons] at hnodup
    by_cases hn : m.name = n
    · have hname2 : ∀ m2 ∈ rest, m2.name ≠ n := by
        intro m2 hm2 he
        exact hnodup.1 (List.mem_map.mpr ⟨m2, hm2, he.trans hn.symm⟩)
      have hfilter : rest.filter (fun m2 => m2.is_active && m2.name == n) = [] := by
        apply List.filter_eq_nil_iff.mpr
        intro m2 hm2
        simp [hname2 m2 hm2]
      have hma : m.is_active = true := hact m (List.mem_cons_self m rest)
      simp [List.filter_cons, hma, hn, hfilter]
    · have hp : (m.is_active && m.name == n) = false := by simp [hn]
      rw [List.filter_cons, if_neg (by simp [hp])]
      exact ih (fun m2 hm2 => hact m2 (List.mem_cons_of_mem m hm2)) hnodup.2

theorem loaderInv_activeCount {l : ModuleLoader} (hinv : LoaderInv l) :
    ∀ n, activeCount l n ≤ 1 := by
  intro n
  exact activeCount_le_one_aux n l.modules hinv.1 hinv.2

theorem load_preserves_inv (fs : FS) (imageOf : Bytes → Option ModIface)
    (allocOK : Nat → Bool) (l : ModuleLoader) (n : String) (hinv : LoaderInv l)
    (hname : ∀ bytes ifc, fsGet fs ("/" ++ n ++ ".bin") = some bytes →
      imageOf bytes = some ifc → strncpy31 ifc.module_name = n) :
    LoaderInv (module_loader_load_module fs imageOf allocOK l n).2 := by
  by_cases hld : module_loader_is_module_loaded l n = true
  · simp only [module_loader_load_module, if_pos hld]
    exact hinv
  · simp only [module_loader_load_module, if_neg hld]
    rcases hget : fsGet fs ("/" ++ n ++ ".bin") with _ | bytes
    · exact hinv
    · simp only []
      by_cases hz : bytes.length = 0
      · simp only [if_pos hz]; exact hinv
      · simp only [if_neg hz]
        by_cases hal : allocOK bytes.length = false
        · simp only [if_pos hal]; exact hinv
        · simp only [if_neg hal]
          rcases himg : imageOf bytes with _ | ifc
          · exact hinv
          · simp only []
            by_cases hini : ifc.init_ok = false
            · simp only [if_pos hini]; exact hinv
            · simp only [if_neg hini]
              have hnm : strncpy31 ifc.module_name = n := hname bytes ifc hget himg
              have hnotmem : n ∉ l.modules.map (fun m => m.name) := by
                intro hmem
                rcases List.mem_map.mp hmem with ⟨m, hm, hmn⟩
                have hnone : find_loaded_module l.modules n = none := by
                  revert hld
                  rcases hf : find_loaded_module l.modules n with _ | m2
                  · intro _; rfl
                  · intro hld
                    exact absurd (by simp [module_loader_is_module_loaded, hf])
                      hld
                exact (find_loaded_none_iff l.modules n).mp hnone m hm
                  ⟨hinv.1 m hm, hmn⟩
              constructor
              · intro m hm
                rcases List.mem_append.mp hm with hm1 | hm2
                · exact hinv.1 m hm1
                · simp only [List.mem_singleton] at hm2
                  rw [hm2]
              · show (List.map (fun m : LoadedModule => m.name)
                  (l.modules ++ [⟨strncpy31 ifc.module_name,
                    strncpy31 ifc.module_version, bytes.length, true⟩])).Nodup
                rw [List.map_append]
                simp only [List.map_cons, List.map_nil]
                rw [hnm]
                have hnd : (List.map (fun m : LoadedModule => m.name)
                    l.modules).Nodup := hinv.2
                simp [List.nodup_append, hnd, hnotmem]

theorem unload_preserves_inv (l : ModuleLoader) (n : String)
    (hinv : LoaderInv l) :
    LoaderInv (module_loader_unload_module l n).2 := by
  rcases hf : find_loaded_module l.modules n with _ | m
  · simp only [module_loader_unload_module, hf]
    exact hinv
  · simp only [module_loader_unload_module, hf]
    have hsub := removeFirstModule_sublist l.modules n
    constructor
    · intro m2 hm2
      exact hinv.1 m2 (hsub.mem hm2)
    · have hnd : (List.map (fun m : LoadedModule => m.name)
          l.modules).Nodup := hinv.2
      exact hnd.sublist (hsub.map (fun m : LoadedModule => m.name))

/-- C7 (amended): `module_loader_load_module` returns
`MODULE_LOAD_ALREADY_LOADED` (leaving the registry unchanged) when a module
with the requested name is already loaded, and `unload` and `tick`
(`module_loader_update_all_modules`) preserve the at-most-one-active-per-
name invariant unconditionally.  However, `load` registers the module under
the name reported by the binary's interface while checking only the
requested name, so `load` and `reload` preserve the invariant only under
the assumption that the interface-reported name of the loaded binary equals
the requested name; a binary reporting another module's name can create a
duplicate entry. -/
theorem claim_C7 (fs : FS) (imageOf : Bytes → Option ModIface)
    (allocOK : Nat → Bool) (l : ModuleLoader) (n : String)
    (hinv : LoaderInv l) :
    (module_loader_is_module_loaded l n = true →
      module_loader_load_module fs imageOf allocOK l n =
        (MODULE_LOAD_ALREADY_LOADED, l)) ∧
    ((∀ bytes ifc, fsGet fs ("/" ++ n ++ ".bin") = some bytes →
        imageOf bytes = some ifc → strncpy31 ifc.module_name = n) →
      LoaderInv (module_loader_load_module fs imageOf allocOK l n).2 ∧
      (∀ m, activeCount (module_loader_load_module fs imageOf allocOK l n).2
        m ≤ 1) ∧
      LoaderInv (module_loader_reload_module fs imageOf allocOK l n).2 ∧
      (∀ m, activeCount (module_loader_reload_module fs imageOf allocOK l n).2
        m ≤ 1)) ∧
    (LoaderInv (module_loader_unload_module l n).2 ∧
      (∀ m, activeCount (module_loader_unload_module l n).2 m ≤ 1)) ∧
    (module_loader_update_all_modules l).1 = l := by
  refine ⟨?_, ?_, ?_, rfl⟩
  · intro hld
    simp only [module_loader_load_module, if_pos hld]
  · intro hname
    have h1 := load_preserves_inv fs imageOf allocOK l n hinv hname
    have h2 := unload_preserves_inv l n hinv
    have h3 := load_preserves_inv fs imageOf allocOK
      (module_loader_unload_module l n).2 n h2 hname
    refine ⟨h1, loaderInv_activeCount h1, ?_, ?_⟩
    · show LoaderInv (module_loader_load_module fs imageOf allocOK
        (module_loader_unload_module l n).2 n).2
      exact h3
    · intro m
      exact loaderInv_activeCount h3 m
  · exact ⟨unload_preserves_inv l n hinv,
      loaderInv_activeCount (unload_preserves_inv l n hinv)⟩

/-- C7 witness: the amended theorem at the sample loader (two distinct
modules loaded) with binaries that report the requested names. -/
theorem claim_C7_witness :
    (module_loader_is_module_loaded loaderC6 "speed_governor" = true →
      module_loader_load_module fsC7 imageOfC7 allocW loaderC6
        "speed_governor" = (MODULE_LOAD_ALREADY_LOADED, loaderC6)) ∧
    ((∀ bytes ifc, fsGet fsC7 ("/" ++ "speed_governor" ++ ".bin") = some bytes →
        imageOfC7 bytes = some ifc → strncpy31 ifc.module_name =
          "speed_governor") →
      LoaderInv (module_loader_load_module fsC7 imageOfC7 allocW loaderC6
        "speed_governor").2 ∧
      (∀ m, activeCount (module_loader_load_module fsC7 imageOfC7 allocW
        loaderC6 "speed_governor").2 m ≤ 1) ∧
      LoaderInv (module_loader_reload_module fsC7 imageOfC7 allocW loaderC6
        "speed_governor").2 ∧
      (∀ m, activeCount (module_loader_reload_module fsC7 imageOfC7 allocW
        loaderC6 "speed_governor").2 m ≤ 1)) ∧
    (LoaderInv (module_loader_unload_module loaderC6 "speed_governor").2 ∧
      (∀ m, activeCount (module_loader_unload_module loaderC6
        "speed_governor").2 m ≤ 1)) ∧
    (module_loader_update_all_modules loaderC6).1 = loaderC6 :=
  claim_C7 fsC7 imageOfC7 allocW loaderC6 "speed_governor"
    (by constructor
        · decide
        · decide)

/-- C7 counterexample: the claim fails on the code at a concrete input.
Starting from an empty registry, loading `speed_governor` and then loading
the file `a.bin` - whose blob reports the interface name `speed_governor` -
both succeed, leaving two active registry entries named `speed_governor`:
the uniqueness claim is violated by a reachable load sequence. -/
theorem claim_C7_counterexample :
    (module_loader_load_module fsC7 imageOfC7 allocW ⟨[]⟩
      "speed_governor").1 = MODULE_LOAD_SUCCESS ∧
    (module_loader_load_module fsC7 imageOfC7 allocW
      (module_loader_load_module fsC7 imageOfC7 allocW ⟨[]⟩
        "speed_governor").2 "a").1 = MODULE_LOAD_SUCCESS ∧
    activeCount (module_loader_load_module fsC7 imageOfC7 allocW
      (module_loader_load_module fsC7 imageOfC7 allocW ⟨[]⟩
        "speed_governor").2 "a").2 "speed_governor" = 2 := by
  decide

theorem updateTracked_none_iff (ms : List TrackedModule) (n v : String) :
    updateTracked ms n v = none ↔ ∀ m ∈ ms, m.module_name ≠ n := by
  induction ms with
  | nil => simp [updateTracked]
  | cons hd rest ih =>
    by_cases hh : hd.module_name = n
    · simp [updateTracked, hh]
    · simp only [updateTracked, if_neg hh]
      constructor
      · intro h m hm
        rcases List.mem_cons.mp hm with he | hr
        · rw [he]; exact hh
        · rcases hrec : updateTracked rest n v with _ | rs
          · exact (ih.mp hrec) m hr
          · rw [hrec] at h; simp at h
      · intro h
        have : updateTracked rest n v = none :=
          ih.mpr (fun m hm => h m (List.mem_cons_of_mem hd hm))
        simp [this]

theorem updateTracked_get_none_iff (ms : List TrackedModule) (n v : String) :
    updateTracked ms n v = none ↔
      ota_updater_get_module_version ms n = none := by
  rw [updateTracked_none_iff]
  induction ms with
  | nil => simp [ota_updater_get_module_version]
  | cons hd rest ih =>
    by_cases hh : hd.module_name = n
    · simp [ota_updater_get_module_version, hh]
    · simp only [ota_updater_get_module_version, if_neg hh]
      rw [← ih]
      constructor
      · intro h m hm
        exact h m (List.mem_cons_of_mem hd hm)
      · intro h m hm
        rcases List.mem_cons.mp hm with he | hr
        · rw [he]; exact hh
        · exact h m hr

theorem updateTracked_some_props (ms : List TrackedModule) (n v : String)
    (ms' : List TrackedModule) (h : updateTracked ms n v = some ms') :
    ms'.map (fun m => m.module_name) = ms.map (fun m => m.module_name) ∧
    ms'.length = ms.length ∧
    ota_updater_get_module_version ms' n = some (strncpy31 v) ∧
    (∀ m, m ≠ n → ota_updater_get_module_version ms' m =
      ota_updater_get_module_version ms m) := by
  induction ms generalizing ms' with
  | nil => simp [updateTracked] at h
  | cons hd rest ih =>
    by_cases hh : hd.module_name = n
    · simp only [updateTracked, if_pos hh, Option.some.injEq] at h
      subst h
      refine ⟨by simp, by simp, ?_, ?_⟩
      · simp [ota_updater_get_module_version, hh]
      · intro m hm
        have : hd.module_name ≠ m := by rw [hh]; exact fun he => hm he.symm
        simp [ota_updater_get_module_version, this]
    · simp only [updateTracked, if_neg hh] at h
      rcases hrec : updateTracked rest n v with _ | rs
      · rw [hrec] at h; simp at h
      · rw [hrec] at h
        simp only [Option.map] at h
        simp only [Option.some.injEq] at h
        subst h
        obtain ⟨hmap, hlen, hget, hother⟩ := ih rs hrec
        refine ⟨by simp [hmap], by simp [hlen], ?_, ?_⟩
        · simp [ota_updater_get_module_version, hh, hget]
        · intro m hm
          by_cases hhm : hd.module_name = m
          · simp [ota_updater_get_module_version, hhm]
          · simp [ota_updater_get_module_version, hhm, hother m hm]

theorem trackedCount_le_one_aux (n : String) :
    ∀ ms : List TrackedModule, (ms.map (fun m => m.module_name)).Nodup →
      (ms.filter (fun m => m.module_name == n)).length ≤ 1 := by
  intro ms
  induction ms with
  | nil => intro _; simp
  | cons hd rest ih =>
    intro hnodup
    simp only [List.map_cons, List.nodup_cons] at hnodup
    by_cases hh : hd.module_name = n
    · have hname2 : ∀ m2 ∈ rest, m2.module_name ≠ n := by
        intro m2 hm2 he
        exact hnodup.1 (List.mem_map.mpr ⟨m2, hm2, he.trans hh.symm⟩)
      have hfilter : rest.filter (fun m2 => m2.module_name == n) = [] := by
        apply List.filter_eq_nil_iff.mpr
        intro m2 hm2
        simp [hname2 m2 hm2]
      simp [List.filter_cons, hh, hfilter]
    · rw [List.filter_cons, if_neg (by simp [hh])]
      exact ih hnodup.2

/-- C10: `ota_updater_set_module_version` is an upsert that preserves the
version tracker's invariants.  Starting from a table with pairwise-distinct
names and at most 8 entries, the result again has distinct names (at most
one tracked entry per name) and at most 8 entries; updating an
already-tracked name returns `true` and overwrites that name's version in
place, leaving the name list and every other name's version unchanged;
adding an untracked name appends it while the table has fewer than 8
entries, and with a full 8-entry table the call returns `false` and leaves
the updater unchanged. -/
theorem claim_C10 (u : OTAUpdater) (n v : String)
    (hnodup : (trackedNames u).Nodup) (hlen : u.tracked_modules.length ≤ 8)
    (hn : n.length ≤ 31) :
    (trackedNames (ota_updater_set_module_version u n v).2).Nodup ∧
    (ota_updater_set_module_version u n v).2.tracked_modules.length ≤ 8 ∧
    (∀ m, trackedCount (ota_updater_set_module_version u n v).2 m ≤ 1) ∧
    ((ota_updater_get_module_version u.tracked_modules n).isSome = true →
      (ota_updater_set_module_version u n v).1 = true ∧
      trackedNames (ota_updater_set_module_version u n v).2 = trackedNames u ∧
      ota_updater_get_module_version
        (ota_updater_set_module_version u n v).2.tracked_modules n =
        some (strncpy31 v) ∧
      (∀ m, m ≠ n → ota_updater_get_module_version
        (ota_updater_set_module_version u n v).2.tracked_modules m =
        ota_updater_get_module_version u.tracked_modules m)) ∧
    ((ota_updater_get_module_version u.tracked_modules n).isSome = false →
      (u.tracked_modules.length < 8 →
        (ota_updater_set_module_version u n v).1 = true ∧
        (ota_updater_set_module_version u n v).2.tracked_modules =
          u.tracked_modules ++ [⟨n, strncpy31 v⟩]) ∧
      (¬ u.tracked_modules.length < 8 →
        ota_updater_set_module_version u n v = (false, u))) := by
  rcases hup : updateTracked u.tracked_modules n v with _ | tracked2
  · have hgn : ota_updater_get_module_version u.tracked_modules n = none :=
      (updateTracked_get_none_iff u.tracked_modules n v).mp hup
    have hnmem : n ∉ trackedNames u := by
      intro hmem
      rcases List.mem_map.mp hmem with ⟨m, hm, hmn⟩
      exact ((updateTracked_none_iff u.tracked_modules n v).mp hup) m hm hmn
    by_cases hl : u.tracked_modules.length < 8
    · have hr : ota_updater_set_module_version u n v =
          (true, { u with tracked_modules := u.tracked_modules ++
            [⟨strncpy31 n, strncpy31 v⟩] }) := by
        simp only [ota_updater_set_module_version, hup, if_pos hl]
      rw [strncpy31_of_le hn] at hr
      refine ⟨?_, ?_, ?_, ?_, ?_⟩
      · rw [hr]
        show (List.map (fun m : TrackedModule => m.module_name)
          (u.tracked_modules ++ [⟨n, strncpy31 v⟩])).Nodup
        rw [List.map_append]
        simp only [List.map_cons, List.map_nil]
        have hnd : (List.map (fun m : TrackedModule => m.module_name)
            u.tracked_modules).Nodup := hnodup
        have hnm : n ∉ List.map (fun m : TrackedModule => m.module_name)
            u.tracked_modules := hnmem
        simp [List.nodup_append, hnd, hnm]
      · rw [hr]
        show (u.tracked_modules ++ [(⟨n, strncpy31 v⟩ : TrackedModule)]).length ≤ 8
        rw [List.length_append]
        simp only [List.length_cons, List.length_nil]
        omega
      · intro m
        rw [hr]
        apply trackedCount_le_one_aux
        show (List.map (fun m : TrackedModule => m.module_name)
          (u.tracked_modules ++ [⟨n, strncpy31 v⟩])).Nodup
        rw [List.map_append]
        simp only [List.map_cons, List.map_nil]
        have hnd : (List.map (fun m : TrackedModule => m.module_name)
            u.tracked_modules).Nodup := hnodup
        have hnm2 : n ∉ List.map (fun m : TrackedModule => m.module_name)
            u.tracked_modules := hnmem
        simp [List.nodup_append, hnd, hnm2]
      · intro hsome
        rw [hgn] at hsome
        simp at hsome
      · intro _
        constructor
        · intro _
          rw [hr]
          exact ⟨rfl, rfl⟩
        · intro hge
          exact absurd hl hge
    · have hr : ota_updater_set_module_version u n v = (false, u) := by
        simp only [ota_updater_set_module_version, hup, if_neg hl]
      refine ⟨?_, ?_, ?_, ?_, ?_⟩
      · rw [hr]; exact hnodup
      · rw [hr]; exact hlen
      · intro m
        rw [hr]
        exact trackedCount_le_one_aux m u.tracked_modules hnodup
      · intro hsome
        rw [hgn] at hsome
        simp at hsome
      · intro _
        exact ⟨fun hlt => absurd hlt hl, fun _ => hr⟩
  · obtain ⟨hmap, hlen2, hget, hother⟩ :=
      updateTracked_some_props u.tracked_modules n v tracked2 hup
    have hr : ota_updater_set_module_version u n v =
        (true, { u with tracked_modules := tracked2 }) := by
      simp only [ota_updater_set_module_version, hup]
    have hgn : ota_updater_get_module_version u.tracked_modules n ≠ none := by
      intro hnone2
      have hupn := (updateTracked_get_none_iff u.tracked_modules n v).mpr hnone2
      simp [hupn] at hup
    refine ⟨?_, ?_, ?_, ?_, ?_⟩
    · rw [hr]
      show (List.map (fun m : TrackedModule => m.module_name) tracked2).Nodup
      rw [hmap]
      exact hnodup
    · rw [hr]
      show tracked2.length ≤ 8
      omega
    · intro m
      rw [hr]
      apply trackedCount_le_one_aux
      show (List.map (fun m : TrackedModule => m.module_name) tracked2).Nodup
      rw [hmap]
      exact hnodup
    · intro _
      rw [hr]
      refine ⟨rfl, ?_, hget, hother⟩
      show List.map (fun m : TrackedModule => m.module_name) tracked2 =
        trackedNames u
      exact hmap
    · intro hnone
      rcases hg : ota_updater_get_module_version u.tracked_modules n with _ | w
      · exact absurd hg hgn
      · rw [hg] at hnone
        simp at hnone

/-- C10 witness: on a full 8-entry tracker with pairwise-distinct names, a
ninth distinct module is rejected and the updater is unchanged. -/
theorem claim_C10_witness :
    (trackedNames (ota_updater_set_module_version ⟨[], trackedFull⟩ "m9"
      "1.0.0").2).Nodup ∧
    (ota_updater_set_module_version ⟨[], trackedFull⟩ "m9"
      "1.0.0").2.tracked_modules.length ≤ 8 ∧
    (∀ m, trackedCount (ota_updater_set_module_version ⟨[], trackedFull⟩ "m9"
      "1.0.0").2 m ≤ 1) ∧
    ((ota_updater_get_module_version trackedFull "m9").isSome = true →
      (ota_updater_set_module_version ⟨[], trackedFull⟩ "m9" "1.0.0").1 =
        true ∧
      trackedNames (ota_updater_set_module_version ⟨[], trackedFull⟩ "m9"
        "1.0.0").2 = trackedNames ⟨[], trackedFull⟩ ∧
      ota_updater_get_module_version (ota_updater_set_module_version
        ⟨[], trackedFull⟩ "m9" "1.0.0").2.tracked_modules "m9" =
        some (strncpy31 "1.0.0") ∧
      (∀ m, m ≠ "m9" → ota_updater_get_module_version
        (ota_updater_set_module_version ⟨[], trackedFull⟩ "m9"
          "1.0.0").2.tracked_modules m =
        ota_updater_get_module_version trackedFull m)) ∧
    ((ota_updater_get_module_version trackedFull "m9").isSome = false →
      (trackedFull.length < 8 →
        (ota_updater_set_module_version ⟨[], trackedFull⟩ "m9" "1.0.0").1 =
          true ∧
        (ota_updater_set_module_version ⟨[], trackedFull⟩ "m9"
          "1.0.0").2.tracked_modules =
          trackedFull ++ [⟨"m9", strncpy31 "1.0.0"⟩]) ∧
      (¬ trackedFull.length < 8 →
        ota_updater_set_module_version ⟨[], trackedFull⟩ "m9" "1.0.0" =
          (false, ⟨[], trackedFull⟩))) :=
  claim_C10 ⟨[], trackedFull⟩ "m9" "1.0.0" (by decide) (by decide) (by decide)

end ModularOTA
